import Mathlib

/-!
Verification of the HearSay media-to-transcript pipeline.

The definitions below are a shallow embedding of the repository's Python
sources (app/main.py, app/services/downloader.py, app/services/translate.py,
app/services/media.py, app/core/config.py).  Python strings are modelled as
Lean String / List Char (ASCII fragment), machine floats carried in the
response record are modelled as rationals (no claim computes with them),
exceptions are modelled with Except, and the external collaborators
(yt-dlp, ffmpeg, faster-whisper, DeepL, Google Translate) are passed in as
explicit outcome parameters, exactly at the call boundary the code uses.
-/

namespace Hearsay

/-! ## ASCII character helpers (models of Python str methods) -/

/-- Model of Python str.lower for a single ASCII character. -/
def toLowerAscii (c : Char) : Char :=
  if 'A' ≤ c && c ≤ 'Z' then Char.ofNat (c.toNat + 32) else c

/-- Model of Python str.upper for a single ASCII character. -/
def toUpperAscii (c : Char) : Char :=
  if 'a' ≤ c && c ≤ 'z' then Char.ofNat (c.toNat - 32) else c

/-- Characters stripped by Python str.strip() (ASCII whitespace). -/
def pyIsSpace (c : Char) : Bool :=
  c = ' ' || c = '\t' || c = '\n' || c = '\r' || c = '\x0b' || c = '\x0c'

/-- Model of Python str.strip(): drop leading and trailing whitespace. -/
def pyStrip (cs : List Char) : List Char :=
  ((cs.dropWhile pyIsSpace).reverse.dropWhile pyIsSpace).reverse

/-- Model of Python str.upper on a whole string. -/
def pyUpper (s : String) : String :=
  ⟨s.data.map toUpperAscii⟩

/-- Model of Python str.isdigit (ASCII digits). -/
def pyIsDigit (c : Char) : Bool :=
  '0' ≤ c && c ≤ '9'

/-- Python t.isdigit(): true iff the string is nonempty and all digits. -/
def strIsDigit (cs : List Char) : Bool :=
  !cs.isEmpty && cs.all pyIsDigit

/-- Decimal value of a digit string, as computed by Python int(...). -/
def digitsVal (cs : List Char) : Nat :=
  cs.foldl (fun a c => a * 10 + (c.toNat - '0'.toNat)) 0

/-! ## app/services/translate.py -/

/-- Target-language normalization performed at the top of
translate_text_with_backoff: the code upper-cases the code, then rewrites a
bare EN to EN-GB and a bare PT to PT-PT. -/
def normalize_target_language (target_language : String) : String :=
  let t0 := pyUpper target_language
  let t1 := if t0 = "EN" then "EN-GB" else t0
  if t1 = "PT" then "PT-PT" else t1

/-- Observable actions of the translation stage: provider API calls and the
sleeps done by the retry logic.  sleep records the time.sleep inside the
provider wrappers; backoffSleep records the time.sleep of the outer retry
loop of translate_text_with_backoff. -/
inductive TrEvent
  | deeplCall
  | googleCall
  | sleep (seconds : Nat)
  | backoffSleep (seconds : Nat)
  deriving DecidableEq, Repr

/-- Retry loop of deepl_translate: one translate_text call per iteration;
on a (caught) provider failure it sleeps the current delay, doubles it and
retries, raising RateLimitError when the attempts are exhausted.  The nth
API call's outcome is call n; the returned Nat is the next call index. -/
def deepl_translate_loop (call : Nat → Except Unit String) :
    Nat → Nat → Nat → Except Unit String × List TrEvent × Nat
  | _, 0, _ => (.error (), [], 0)
  | idx, n + 1, delay =>
    match call idx with
    | .ok t => (.ok t, [.deeplCall], idx + 1)
    | .error _ =>
      let r := deepl_translate_loop call (idx + 1) n (delay * 2)
      (r.1, .deeplCall :: .sleep delay :: r.2.1, r.2.2)

/-- Model of deepl_translate: raises ValueError before any call when no
DEEPL_API_KEY is available, otherwise runs the retry loop with delay 1.
Provider failures are modelled as the SDK exceptions the wrapper catches. -/
def deepl_translate (keyFound : Bool) (call : Nat → Except Unit String)
    (idx max_retries : Nat) : Except Unit String × List TrEvent × Nat :=
  if keyFound then deepl_translate_loop call idx max_retries 1
  else (.error (), [], idx)

/-- Retry loop of google_translate, same shape as the DeepL one; the except
clause of the source catches every exception. -/
def google_translate_loop (call : Nat → Except Unit String) :
    Nat → Nat → Nat → Except Unit String × List TrEvent × Nat
  | _, 0, _ => (.error (), [], 0)
  | idx, n + 1, delay =>
    match call idx with
    | .ok t => (.ok t, [.googleCall], idx + 1)
    | .error _ =>
      let r := google_translate_loop call (idx + 1) n (delay * 2)
      (r.1, .googleCall :: .sleep delay :: r.2.1, r.2.2)

/-- Model of google_translate with delay starting at 1. -/
def google_translate (call : Nat → Except Unit String)
    (idx max_retries : Nat) : Except Unit String × List TrEvent × Nat :=
  google_translate_loop call idx max_retries 1

/-- Outer retry loop of translate_text_with_backoff: per outer attempt, try
DeepL (when a key is configured) with max_retries=1, fall back to Google
with max_retries=1 on any DeepL failure; if both fail, sleep the backoff
delay, double it and retry; raise RateLimitError after the last attempt.
dIdx and gIdx index the DeepL and Google API calls made so far. -/
def translate_attempts (keyConfigured : Bool)
    (deepl google : Nat → Except Unit String) :
    Nat → Nat → Nat → Nat → Except Unit String × List TrEvent
  | _, _, 0, _ => (.error (), [])
  | dIdx, gIdx, n + 1, delay =>
    let step :=
      if keyConfigured then
        let d := deepl_translate true deepl dIdx 1
        match d.1 with
        | .ok t => (Except.ok t, d.2.1, d.2.2, gIdx)
        | .error _ =>
          let g := google_translate google gIdx 1
          (g.1, d.2.1 ++ g.2.1, d.2.2, g.2.2)
      else
        let g := google_translate google gIdx 1
        (g.1, g.2.1, dIdx, g.2.2)
    match step with
    | (.ok t, evs, _, _) => (.ok t, evs)
    | (.error _, evs, dIdx2, gIdx2) =>
      let rest := translate_attempts keyConfigured deepl google dIdx2 gIdx2 n (delay * 2)
      (rest.1, evs ++ .backoffSleep delay :: rest.2)

/-- Model of translate_text_with_backoff: empty text passes through without
any provider call; otherwise the target language is normalized and up to 3
outer attempts are made with backoff starting at 1 second. -/
def translate_text_with_backoff (keyConfigured : Bool)
    (deepl google : Nat → Except Unit String)
    (text target_language : String) : Except Unit String × List TrEvent :=
  if text = "" then (.ok text, [])
  else
    let _tl := normalize_target_language target_language
    translate_attempts keyConfigured deepl google 0 0 3 1

/-! ## app/services/downloader.py: extractor args (config.py supplies the default) -/

/-- Default value of Settings.YT_EXTRACTOR_ARGS in app/core/config.py. -/
def YT_EXTRACTOR_ARGS_default : String := "youtube:player_client=android"

/-- Extractor profile used by download_youtube_best_audio when cookies are
present and a blank YT_EXTRACTOR_ARGS lets the fallback apply. -/
def cookieful_extractor_args : String :=
  "youtube:player_client=web,ios,mweb;player_skip=webpage"

/-- Extractor profile used when no cookies file is available. -/
def cookieless_extractor_args : String :=
  "youtube:player_client=android,web,ios,mweb;player_skip=webpage"

/-- Model of the extractor_args expression in download_youtube_best_audio:
the stripped configured setting wins when nonempty, otherwise the choice
depends on whether a readable cookies file is in use. -/
def build_extractor_args (configured : String) (using_cookies : Bool) : String :=
  let t : String := ⟨pyStrip configured.data⟩
  if t = "" then
    if using_cookies then cookieful_extractor_args else cookieless_extractor_args
  else t

/-! ## app/services/downloader.py: time-offset parsing -/

/-- Scanner equivalent to Python re.findall of a digit run directly followed
by one of the unit letters h, m, s: digits are accumulated; when a unit
letter follows a nonempty run the pair is emitted, otherwise the run is
discarded; scanning resumes after the unit.  The accumulator holds the
current digit run in reverse. -/
def findHMSAux : List Char → List Char → List (Nat × Char)
  | _, [] => []
  | run, c :: rest =>
    if pyIsDigit c then findHMSAux (c :: run) rest
    else if (c = 'h' || c = 'm' || c = 's') && !run.isEmpty then
      (digitsVal run.reverse, c) :: findHMSAux [] rest
    else findHMSAux [] rest

/-- All (value, unit) groups matched in the string, left to right. -/
def findHMSGroups (cs : List Char) : List (Nat × Char) :=
  findHMSAux [] cs

/-- First maximal digit run of the string, the fallback the source reads
with re.findall of a digit run when the unit parsing totalled zero. -/
def firstDigitRun : List Char → Option (List Char)
  | [] => none
  | c :: rest =>
    if pyIsDigit c then some ((c :: rest).takeWhile pyIsDigit)
    else firstDigitRun rest

/-- Seconds contributed by one (value, unit) group of _parse_yt_time. -/
def hmsWeight (u : Char) : Nat :=
  if u = 'h' then 3600 else if u = 'm' then 60 else 1

/-- Sum of the contributions of all unit groups, for stating properties of
_parse_yt_time. -/
def hmsGroupsSum (t : List Char) : Nat :=
  ((findHMSGroups (t.map toLowerAscii)).map fun g => g.1 * hmsWeight g.2).sum

/-- Model of _parse_yt_time: a pure digit string is its decimal value;
otherwise the h/m/s groups of the lower-cased string are summed with the
if-chain of the source; a zero total falls back to the first digit run of
the original string, or 0 when the string holds no digit. -/
def parse_yt_time (t : List Char) : Nat :=
  if strIsDigit t then digitsVal t
  else
    let total :=
      (findHMSGroups (t.map toLowerAscii)).foldl
        (fun total g =>
          if g.2 = 'h' then total + g.1 * 3600
          else if g.2 = 'm' then total + g.1 * 60
          else total + g.1) 0
    if total = 0 then
      match firstDigitRun t with
      | some run => digitsVal run
      | none => 0
    else total

/-! ## app/services/downloader.py: video-id extraction -/

/-- Character class of the video-id capture group of _YT_ID_RE and of the
fullmatch check in parse_youtube_value. -/
def isYTIdChar (c : Char) : Bool :=
  ('0' ≤ c && c ≤ '9') || ('A' ≤ c && c ≤ 'Z') || ('a' ≤ c && c ≤ 'z') ||
    c = '_' || c = '-'

/-- Python re.fullmatch of eleven id-class characters. -/
def isValidYTId (cs : List Char) : Bool :=
  cs.length == 11 && cs.all isYTIdChar

/-- Capture step of _YT_ID_RE: after a matched URL marker the regex requires
eleven id-class characters and captures them. -/
def ytCapture (cs : List Char) : Option (List Char) :=
  let cand := cs.take 11
  if isValidYTId cand then some cand else none

/-- Alternation of _YT_ID_RE at one start position.  The four marker strings
are mutually exclusive at a fixed position (they diverge inside their common
prefix), so trying them in the source order is exactly the regex behaviour. -/
def ytMatchAt (cs : List Char) : Option (List Char) :=
  if ("youtu.be/".data).isPrefixOf cs then ytCapture (cs.drop 9)
  else if ("youtube.com/watch?v=".data).isPrefixOf cs then ytCapture (cs.drop 20)
  else if ("youtube.com/embed/".data).isPrefixOf cs then ytCapture (cs.drop 18)
  else if ("youtube.com/shorts/".data).isPrefixOf cs then ytCapture (cs.drop 19)
  else none

/-- Model of _YT_ID_RE.search: leftmost position where the pattern matches.
A failed capture after a matched marker lets the scan move one position
right, as the regex engine does (no shorter digit-free backtrack exists:
the markers are mutually exclusive at any one position). -/
def ytSearch : List Char → Option (List Char)
  | [] => none
  | c :: rest =>
    match ytMatchAt (c :: rest) with
    | some v => some v
    | none => ytSearch rest

/-! ## app/services/downloader.py: URL splitting (urllib.parse fragment) -/

/-- Model of the query component produced by urlparse: the part after the
first question mark of the input with any fragment after a hash removed
first.  Percent-escapes and plus signs do not occur in the inputs the
theorems quantify over, so no unquoting is modelled. -/
def urlQuery (cs : List Char) : List Char :=
  let beforeFrag := cs.takeWhile (fun c => !(c = '#'))
  match beforeFrag.dropWhile (fun c => !(c = '?')) with
  | [] => []
  | _ :: rest => rest

/-- Split a character list on every occurrence of sep, as Python
str.split(sep) does; the result is never empty. -/
def splitOnChar (sep : Char) : List Char → List (List Char)
  | [] => [[]]
  | c :: cs =>
    let r := splitOnChar sep cs
    if c = sep then [] :: r
    else
      match r with
      | [] => [[c]]
      | g :: gs => (c :: g) :: gs

/-- One field of a query string, as parse_qsl reads it: the name is the part
before the first equals sign, a field without an equals sign is skipped, and
blank values are dropped (keep_blank_values is false). -/
def qs_field (field : List Char) : Option (List Char × List Char) :=
  let name := field.takeWhile (fun c => !(c = '='))
  match field.dropWhile (fun c => !(c = '=')) with
  | [] => none
  | _ :: value => if value.isEmpty then none else some (name, value)

/-- Model of urllib.parse.parse_qs restricted to unescaped input: fields are
split on ampersands and read by qs_field. -/
def parse_qs_pairs (q : List Char) : List (List Char × List Char) :=
  (splitOnChar '&' q).filterMap qs_field

/-- First value listed for a key, matching qs.get(key) followed by [0] and
the membership tests the source performs on the parse_qs dict. -/
def qsLookup (q : List Char) (key : List Char) : Option (List Char) :=
  (parse_qs_pairs q).findSome? fun p => if p.1 = key then some p.2 else none

/-- Start offset drawn from a query string: a t key wins over a start key,
each fed to _parse_yt_time, as in both query-reading sites of the source. -/
def qsStart (q : List Char) : Option Nat :=
  match qsLookup q ("t".data) with
  | some tv => some (parse_yt_time tv)
  | none =>
    match qsLookup q ("start".data) with
    | some sv => some (parse_yt_time sv)
    | none => none

/-- Python value.startswith of the two HTTP scheme markers. -/
def startsWithHttp (cs : List Char) : Bool :=
  ("http://".data).isPrefixOf cs || ("https://".data).isPrefixOf cs

/-- Model of parse_youtube_value: strip, then the three-way classification
of the source.  URL inputs read the id from the v query parameter, falling
back to the regex on the whole value; an input containing an ampersand is
split at the first one, the head kept when it is a well-formed id, else the
regex is tried; a bare well-formed id passes through; anything else is a
best-effort regex search. -/
def parse_youtube_value (value : List Char) : Option (List Char) × Option Nat :=
  let value := pyStrip value
  if startsWithHttp value then
    let q := urlQuery value
    let vid :=
      match qsLookup q ("v".data) with
      | some v => some v
      | none => ytSearch value
    (vid, qsStart q)
  else if value.contains '&' then
    let head := value.takeWhile (fun c => !(c = '&'))
    let tail := (value.dropWhile (fun c => !(c = '&'))).drop 1
    let start := qsStart tail
    if isValidYTId head then (some head, start)
    else (ytSearch value, start)
  else if isValidYTId value then (some value, none)
  else (ytSearch value, none)

/-- Character class of the time-offset strings quantified over in the URL
equivalence property: digits and the three unit letters. -/
def isOffsetChar (c : Char) : Bool :=
  pyIsDigit c || c = 'h' || c = 'm' || c = 's'

/-- Id-validation step at the top of download_youtube_best_audio: a missing
id raises ValueError before any subprocess is invoked. -/
def download_youtube_parse_step (value : List Char) :
    Except String (List Char × Option Nat) :=
  match parse_youtube_value value with
  | (none, _) => .error "Could not parse a valid YouTube video ID"
  | (some v, s) => .ok (v, s)

/-! ## app/services/media.py -/

/-- Audio extension allowlist of app/services/media.py. -/
def AUDIO_EXTS : List String :=
  ["mp3", "aac", "wav", "wma", "ogg", "flac", "m4a", "aiff", "opus", "alac", "amr"]

/-- Video extension allowlist of app/services/media.py. -/
def VIDEO_EXTS : List String :=
  ["mp4", "avi", "mov", "wmv", "mpeg", "mpg", "mkv", "flv", "webm", "3gp", "mts", "m2ts", "vob", "rmvb"]

/-- mime.startswith of the video marker. -/
def is_video (mime : String) : Bool :=
  ("video/".data).isPrefixOf mime.data

/-- mime.startswith of the audio marker. -/
def is_audio (mime : String) : Bool :=
  ("audio/".data).isPrefixOf mime.data

/-- Name component of a path, the part after the last slash. -/
def pathName (cs : List Char) : List Char :=
  (cs.reverse.takeWhile (fun c => !(c = '/'))).reverse

/-- Model of pathlib Path.suffix: the final dot-extension of the name, empty
when the name has no dot, starts with its only dot, or ends with it. -/
def pathSuffix (filename : String) : String :=
  let name := pathName filename.data
  let afterDot := (name.reverse.takeWhile (fun c => !(c = '.'))).reverse
  if afterDot.length < name.length ∧ 0 < name.length - afterDot.length - 1 ∧ afterDot ≠ []
  then ⟨'.' :: afterDot⟩ else ""

/-- Model of Path.with_suffix applied with the m4a extension: the existing
suffix is removed and the new one appended. -/
def withSuffixM4a (p : String) : String :=
  ⟨p.data.take (p.data.length - (pathSuffix p).data.length) ++ (".m4a").data⟩

/-- Extension examined by validate_file_extension: the lower-cased suffix of
the path with leading dots stripped. -/
def extOf (p : String) : String :=
  ⟨((pathSuffix p).data.map toLowerAscii).dropWhile (fun c => c = '.')⟩

/-- Check performed by validate_file_extension against the two allowlists. -/
def validate_file_extension_ok (p : String) : Bool :=
  AUDIO_EXTS.contains (extOf p) || VIDEO_EXTS.contains (extOf p)

/-- Request-level failures: an HTTPException carrying a status code, or an
exception that escapes the handler uncaught. -/
inductive HearsayError
  | http (status : Nat) (detail : String)
  | uncaught (detail : String)
  deriving DecidableEq, Repr

/-- Model of extract_audio_to_m4a: a disallowed extension of the input path
raises HTTPException 415 before ffmpeg runs; a non-zero ffmpeg exit raises
CalledProcessError, which no caller catches. -/
def extract_audio_to_m4a (inputPath : String) (ffmpegResult : Except String Unit) :
    Except HearsayError Unit :=
  if validate_file_extension_ok inputPath then
    match ffmpegResult with
    | .ok _ => .ok ()
    | .error e => .error (.uncaught e)
  else .error (.http 415 ("Unsupported file extension: ." ++ extOf inputPath))

/-! ## app/models/schemas.py -/

/-- Segment of schemas.py; the field named end in the source is written stop
here because end is a Lean keyword.  Floats are modelled as rationals. -/
structure Segment where
  start : ℚ
  stop : ℚ
  text : String
  deriving DecidableEq, Repr

/-- TranscriptionResponse of schemas.py. -/
structure TranscriptionResponse where
  source : String
  detected_language : String
  duration_sec : Option ℚ
  transcript_original : String
  transcript_english : String
  segments : Option (List Segment)
  translation_status : Option String
  deriving DecidableEq, Repr

/-! ## app/main.py -/

/-- Result tuple of transcribe_file: full text, detected language, duration
and the raw segment dicts of (start, end, text). -/
structure SttOut where
  full_text : String
  detected_lang : String
  duration_sec : ℚ
  segments_raw : List (ℚ × ℚ × String)
  deriving DecidableEq, Repr

/-- Segment list of the response: None when the raw list is empty, else the
Segment records, as the conditional expression of the source builds it. -/
def mkSegments (raw : List (ℚ × ℚ × String)) : Option (List Segment) :=
  if raw.isEmpty then none
  else some (raw.map fun s => { start := s.1, stop := s.2.1, text := s.2.2 })

/-- Read size of the upload loop in transcribe_upload. -/
def chunkSize : Nat := 1024 * 1024

/-- Upload save loop of transcribe_upload: read a bounded chunk, stop when
it is empty, otherwise issue out.write(chunk) and continue.  awaited records
whether the write coroutine is awaited; the source does not await it, so
with awaited false a write leaves the file unchanged (the coroutine is
created and discarded). -/
def save_upload_loop (awaited : Bool) (data file : List Nat) : List Nat :=
  if h : (data.take chunkSize).isEmpty then file
  else
    save_upload_loop awaited (data.drop chunkSize)
      (if awaited then file ++ data.take chunkSize else file)
termination_by data.length
decreasing_by
  simp only [List.length_drop]
  have hd : data ≠ [] := by
    intro h0
    simp [h0] at h
  have hpos : 0 < data.length := List.length_pos.mpr hd
  have : 0 < chunkSize := by simp [chunkSize]
  omega

/-- Bytes residing in the temporary upload file after the save loop. -/
def save_upload (awaited : Bool) (data : List Nat) : List Nat :=
  save_upload_loop awaited data []

/-- Configured maximum upload size in app/core/config.py (500 MB). -/
def MAX_UPLOAD_BYTES : Nat := 500 * 1024 * 1024

/-- Outcome of one transcribe_youtube request: the HTTP-level result, the
intermediate files created while it ran, and the paths handed to the
background cleanup task. -/
structure YtOut where
  result : Except HearsayError TranscriptionResponse
  created : List String
  scheduled : List String
  deriving Repr

/-- Model of the transcribe_youtube handler: a downloader exception becomes
HTTPException 400; a transcribe_file exception propagates uncaught; any
translate_to_english exception is absorbed by substituting the original
transcript and marking the translation failed; cleanup of the downloaded
audio file is scheduled only after the response is constructed. -/
def transcribe_youtube (downloadResult : Except String String)
    (sttResult : Except String SttOut)
    (translateResult : Except String String) : YtOut :=
  match downloadResult with
  | .error e =>
    { result := .error (.http 400 ("yt-dlp failed: " ++ e)), created := [], scheduled := [] }
  | .ok audio_path =>
    match sttResult with
    | .error e =>
      { result := .error (.uncaught e), created := [audio_path], scheduled := [] }
    | .ok stt =>
      let p :=
        match translateResult with
        | .ok t => (t, "ok")
        | .error _ => (stt.full_text, "failed")
      let resp : TranscriptionResponse :=
        { source := "youtube"
          detected_language := stt.detected_lang
          duration_sec := some stt.duration_sec
          transcript_original := stt.full_text
          transcript_english := p.1
          segments := mkSegments stt.segments_raw
          translation_status := some p.2 }
      { result := .ok resp, created := [audio_path], scheduled := [audio_path] }

/-- Outcome of one transcribe_upload request; savedBytes is the content of
the temporary upload file after the save loop. -/
structure UploadOut where
  result : Except HearsayError TranscriptionResponse
  created : List String
  savedBytes : List Nat
  scheduled : List String
  deriving Repr

/-- Model of the transcribe_upload handler.  The temporary file name keeps
the original filename suffix (the pid and object-id infix of the source is
abstracted away); the save loop runs with awaited false because the source
never awaits out.write; a mime type that is neither audio nor video raises
HTTPException 415; extract_audio_to_m4a and transcribe_file failures
propagate; translation failures are absorbed; cleanup of both files is
scheduled only after the response is constructed. -/
def transcribe_upload (filename mime : String) (data : List Nat)
    (ffmpegResult : Except String Unit) (sttResult : Except String SttOut)
    (translateResult : Except String String) : UploadOut :=
  let suffix := pathSuffix filename
  let tmp_saved := "uploads/upload" ++ suffix
  let saved := save_upload false data
  let audio_path := withSuffixM4a tmp_saved
  if is_audio mime || is_video mime then
    match extract_audio_to_m4a tmp_saved ffmpegResult with
    | .error e =>
      { result := .error e, created := [tmp_saved], savedBytes := saved, scheduled := [] }
    | .ok _ =>
      match sttResult with
      | .error e =>
        { result := .error (.uncaught e), created := [tmp_saved, audio_path],
          savedBytes := saved, scheduled := [] }
      | .ok stt =>
        let p :=
          match translateResult with
          | .ok t => (t, "ok")
          | .error _ => (stt.full_text, "failed")
        let resp : TranscriptionResponse :=
          { source := "upload"
            detected_language := stt.detected_lang
            duration_sec := some stt.duration_sec
            transcript_original := stt.full_text
            transcript_english := p.1
            segments := mkSegments stt.segments_raw
            translation_status := some p.2 }
        { result := .ok resp, created := [tmp_saved, audio_path],
          savedBytes := saved, scheduled := [tmp_saved, audio_path] }
  else
    { result := .error (.http 415 ("Unsupported content type: " ++ mime)),
      created := [tmp_saved], savedBytes := saved, scheduled := [] }

/-- Model of cleanup_paths over an abstract file store: each scheduled path
is deleted when its deletion succeeds, and a failing deletion is swallowed
by the bare except of the source, leaving the store unchanged for that path;
the function is total, so cleanup can never raise. -/
def cleanup_paths (deleteOk : String → Bool) (paths fs : List String) : List String :=
  paths.foldl (fun acc p => if deleteOk p then acc.filter (fun q => !(q = p)) else acc) fs

/-- Composition run by the framework: the handler builds its outcome, then
the background task list runs cleanup_paths on the scheduled paths. -/
def handle_upload_request (filename mime : String) (data : List Nat)
    (ffmpegResult : Except String Unit) (sttResult : Except String SttOut)
    (translateResult : Except String String)
    (deleteOk : String → Bool) (fs : List String) :
    Except HearsayError TranscriptionResponse × List String :=
  let o := transcribe_upload filename mime data ffmpegResult sttResult translateResult
  (o.result, cleanup_paths deleteOk o.scheduled fs)

/-! ## Helper lemmas -/

/-- With the write coroutine never awaited, the save loop leaves the file
empty whatever was uploaded (stated with a fuel bound for the induction). -/
theorem save_upload_loop_false_fuel :
    ∀ n (data file : List Nat), data.length ≤ n →
      save_upload_loop false data file = file := by
  intro n
  induction n with
  | zero =>
    intro data file hlen
    have hd : data = [] := by cases data with
      | nil => rfl
      | cons a as => simp at hlen
    subst hd
    rw [save_upload_loop]
    simp
  | succ n ih =>
    intro data file hlen
    rw [save_upload_loop]
    split
    next => rfl
    next h =>
      apply ih
      have hd : data ≠ [] := by intro h0; simp [h0] at h
      have hpos : 0 < data.length := List.length_pos.mpr hd
      have hc : 0 < chunkSize := by simp [chunkSize]
      simp only [List.length_drop]
      omega

/-- Specialisation of the previous lemma to the loop entry. -/
theorem save_upload_loop_false (data file : List Nat) :
    save_upload_loop false data file = file :=
  save_upload_loop_false_fuel data.length data file le_rfl

/-- With awaited writes the save loop appends the whole upload. -/
theorem save_upload_loop_true_fuel :
    ∀ n (data file : List Nat), data.length ≤ n →
      save_upload_loop true data file = file ++ data := by
  intro n
  induction n with
  | zero =>
    intro data file hlen
    have hd : data = [] := by cases data with
      | nil => rfl
      | cons a as => simp at hlen
    subst hd
    rw [save_upload_loop]
    simp
  | succ n ih =>
    intro data file hlen
    rw [save_upload_loop]
    split
    next h =>
      have hd : data = [] := by
        rcases (List.take_eq_nil_iff.mp (List.isEmpty_iff.mp h)) with h0 | h0
        · exact absurd h0 (by simp [chunkSize])
        · exact h0
      simp [hd]
    next h =>
      have hd : data ≠ [] := by intro h0; simp [h0] at h
      have hpos : 0 < data.length := List.length_pos.mpr hd
      have hc : 0 < chunkSize := by simp [chunkSize]
      rw [ih (data.drop chunkSize) _ (by simp only [List.length_drop]; omega)]
      simp [List.append_assoc, List.take_append_drop]

/-- Specialisation of the previous lemma to the loop entry. -/
theorem save_upload_loop_true (data file : List Nat) :
    save_upload_loop true data file = file ++ data :=
  save_upload_loop_true_fuel data.length data file le_rfl

/-- Folding the if-chain of _parse_yt_time equals adding the weighted sum of
the groups. -/
theorem hms_fold_eq (l : List (Nat × Char)) (init : Nat) :
    l.foldl
      (fun total g =>
        if g.2 = 'h' then total + g.1 * 3600
        else if g.2 = 'm' then total + g.1 * 60
        else total + g.1) init
      = init + (l.map fun g => g.1 * hmsWeight g.2).sum := by
  induction l generalizing init with
  | nil => simp
  | cons g gs ih =>
    rw [List.foldl_cons, ih, List.map_cons, List.sum_cons]
    unfold hmsWeight
    split_ifs <;> omega

/-- Closed form of _parse_yt_time for a non-pure-digit input: the weighted
group sum, falling back to the first digit run when the sum is zero. -/
theorem parse_yt_time_eq (t : List Char) (h1 : strIsDigit t = false) :
    parse_yt_time t =
      if hmsGroupsSum t = 0 then
        (match firstDigitRun t with | some run => digitsVal run | none => 0)
      else hmsGroupsSum t := by
  rw [parse_yt_time, if_neg (by simp [h1]), hms_fold_eq]
  simp only [Nat.zero_add]
  rfl

/-- Characters of distinct classes are distinct: used with a concrete x
whose class value computes to false. -/
theorem ne_of_class (f : Char → Bool) (c x : Char) (h : f c = true)
    (hx : f x = false) : c ≠ x := by
  intro he
  subst he
  rw [h] at hx
  exact absurd hx (by decide)

/-- An id-class character is not Python whitespace. -/
theorem not_space_of_ytIdChar (c : Char) (h : isYTIdChar c = true) :
    pyIsSpace c = false := by
  cases hs : pyIsSpace c
  · rfl
  · exfalso
    have h6 : c = ' ' ∨ c = '\t' ∨ c = '\n' ∨ c = '\r' ∨ c = '\x0b' ∨ c = '\x0c' := by
      simpa [pyIsSpace, or_assoc] using hs
    rcases h6 with rfl | rfl | rfl | rfl | rfl | rfl <;> exact absurd h (by decide)

/-- An offset-class character is not Python whitespace. -/
theorem not_space_of_offsetChar (c : Char) (h : isOffsetChar c = true) :
    pyIsSpace c = false := by
  cases hs : pyIsSpace c
  · rfl
  · exfalso
    have h6 : c = ' ' ∨ c = '\t' ∨ c = '\n' ∨ c = '\r' ∨ c = '\x0b' ∨ c = '\x0c' := by
      simpa [pyIsSpace, or_assoc] using hs
    rcases h6 with rfl | rfl | rfl | rfl | rfl | rfl <;> exact absurd h (by decide)

/-- dropWhile is the identity when no element satisfies the predicate. -/
theorem dropWhile_eq_self_of_all (p : Char → Bool) (cs : List Char)
    (h : ∀ c ∈ cs, p c = false) : cs.dropWhile p = cs := by
  cases cs with
  | nil => rfl
  | cons a as =>
    rw [List.dropWhile_cons, h a (by simp)]
    simp

/-- Python strip is the identity on whitespace-free strings. -/
theorem pyStrip_eq_self (cs : List Char) (h : ∀ c ∈ cs, pyIsSpace c = false) :
    pyStrip cs = cs := by
  unfold pyStrip
  rw [dropWhile_eq_self_of_all _ _ h,
    dropWhile_eq_self_of_all _ _ (fun c hc => h c (List.mem_reverse.mp hc)),
    List.reverse_reverse]

/-- Splitting a membership proof over an append. -/
theorem forall_mem_append {P : Char → Prop} {a b : List Char}
    (ha : ∀ c ∈ a, P c) (hb : ∀ c ∈ b, P c) : ∀ c ∈ a ++ b, P c := by
  intro c hc
  rcases List.mem_append.mp hc with h | h
  · exact ha c h
  · exact hb c h

/-- A list is a Boolean prefix of itself followed by anything. -/
theorem isPrefixOf_append_self : ∀ (p rest : List Char),
    p.isPrefixOf (p ++ rest) = true := by
  intro p rest
  induction p with
  | nil => simp [List.isPrefixOf]
  | cons a as ih => simp [List.isPrefixOf, ih]

/-- Members of a Boolean prefix are members of the longer list. -/
theorem isPrefixOf_mem_subset : ∀ (p l : List Char),
    p.isPrefixOf l = true → ∀ c ∈ p, c ∈ l := by
  intro p
  induction p with
  | nil => simp
  | cons a as ih =>
    intro l h c hc
    cases l with
    | nil => simp [List.isPrefixOf] at h
    | cons b bs =>
      simp only [List.isPrefixOf, Bool.and_eq_true, beq_iff_eq] at h
      rcases List.mem_cons.mp hc with rfl | hc2
      · simp [h.1]
      · exact List.mem_cons_of_mem _ (ih bs h.2 c hc2)

/-- A string without a colon cannot start with an HTTP scheme marker. -/
theorem startsWithHttp_false_of_no_colon (l : List Char)
    (h : ∀ c ∈ l, ¬(c = ':')) : startsWithHttp l = false := by
  have key : ∀ p : List Char, ':' ∈ p → p.isPrefixOf l = false := by
    intro p hcolon
    cases hp : p.isPrefixOf l
    · rfl
    · exact absurd rfl (h ':' (isPrefixOf_mem_subset p l hp ':' hcolon))
  unfold startsWithHttp
  rw [key _ (by decide), key _ (by decide)]
  rfl

/-- A string starting with the https marker trips startsWithHttp. -/
theorem startsWithHttp_https (rest : List Char) :
    startsWithHttp (("https://").data ++ rest) = true := by
  unfold startsWithHttp
  rw [isPrefixOf_append_self]
  simp

/-- splitOnChar never returns an empty list of groups. -/
theorem splitOnChar_ne_nil (sep : Char) : ∀ cs, splitOnChar sep cs ≠ [] := by
  intro cs
  induction cs with
  | nil => simp [splitOnChar]
  | cons c cs ih =>
    rw [splitOnChar]
    split
    · simp
    · cases hr : splitOnChar sep cs with
      | nil => exact absurd hr ih
      | cons g gs => simp [hr]

/-- splitOnChar of a separator-free list is that single group. -/
theorem splitOnChar_no_sep (sep : Char) : ∀ cs, (∀ c ∈ cs, ¬(c = sep)) →
    splitOnChar sep cs = [cs] := by
  intro cs
  induction cs with
  | nil => intro _; rfl
  | cons c cs ih =>
    intro h
    rw [splitOnChar, if_neg (h c (by simp)), ih (fun d hd => h d (by simp [hd]))]

/-- splitOnChar splits at the first separator after a separator-free head. -/
theorem splitOnChar_append (sep : Char) : ∀ (a b : List Char),
    (∀ c ∈ a, ¬(c = sep)) →
    splitOnChar sep (a ++ sep :: b) = a :: splitOnChar sep b := by
  intro a
  induction a with
  | nil =>
    intro b _
    rw [List.nil_append, splitOnChar, if_pos rfl]
  | cons x xs ih =>
    intro b h
    rw [List.cons_append, splitOnChar, if_neg (h x (by simp)),
      ih b (fun d hd => h d (by simp [hd]))]

/-- takeWhile up to the first equals sign of a key-value field. -/
theorem takeWhile_field_key (k v : List Char) (hk : ∀ c ∈ k, ¬(c = '=')) :
    (k ++ '=' :: v).takeWhile (fun c => !(c = '=')) = k := by
  rw [List.takeWhile_append_of_pos (by intro a ha; simp [hk a ha]),
    List.takeWhile_cons]
  simp

/-- dropWhile up to the first equals sign of a key-value field. -/
theorem dropWhile_field_key (k v : List Char) (hk : ∀ c ∈ k, ¬(c = '=')) :
    (k ++ '=' :: v).dropWhile (fun c => !(c = '=')) = '=' :: v := by
  rw [List.dropWhile_append_of_pos (by intro a ha; simp [hk a ha]),
    List.dropWhile_cons]
  simp

/-- A well-formed field with a nonempty value parses to its pair. -/
theorem qs_field_some (k v : List Char) (hke : ∀ c ∈ k, ¬(c = '='))
    (hv : v ≠ []) : qs_field (k ++ '=' :: v) = some (k, v) := by
  unfold qs_field
  rw [takeWhile_field_key k v hke, dropWhile_field_key k v hke]
  simp [hv]

/-- Absence of ampersands in a well-formed field. -/
theorem field_no_amp (k v : List Char) (hka : ∀ c ∈ k, ¬(c = '&'))
    (hva : ∀ c ∈ v, ¬(c = '&')) : ∀ c ∈ k ++ '=' :: v, ¬(c = '&') := by
  refine forall_mem_append hka ?_
  intro c hc
  rcases List.mem_cons.mp hc with rfl | hc2
  · decide
  · exact hva c hc2

/-- parse_qs of one field with a nonempty value. -/
theorem parse_qs_pairs_single (k v : List Char)
    (hka : ∀ c ∈ k, ¬(c = '&')) (hke : ∀ c ∈ k, ¬(c = '='))
    (hva : ∀ c ∈ v, ¬(c = '&')) (hv : v ≠ []) :
    parse_qs_pairs (k ++ '=' :: v) = [(k, v)] := by
  unfold parse_qs_pairs
  rw [splitOnChar_no_sep '&' _ (field_no_amp k v hka hva),
    List.filterMap_cons, qs_field_some k v hke hv, List.filterMap_nil]

/-- parse_qs of two fields with nonempty values. -/
theorem parse_qs_pairs_pair (k1 v1 k2 v2 : List Char)
    (hk1a : ∀ c ∈ k1, ¬(c = '&')) (hk1e : ∀ c ∈ k1, ¬(c = '='))
    (hv1a : ∀ c ∈ v1, ¬(c = '&')) (hv1 : v1 ≠ [])
    (hk2a : ∀ c ∈ k2, ¬(c = '&')) (hk2e : ∀ c ∈ k2, ¬(c = '='))
    (hv2a : ∀ c ∈ v2, ¬(c = '&')) (hv2 : v2 ≠ []) :
    parse_qs_pairs ((k1 ++ '=' :: v1) ++ '&' :: (k2 ++ '=' :: v2)) =
      [(k1, v1), (k2, v2)] := by
  unfold parse_qs_pairs
  rw [splitOnChar_append '&' _ _ (field_no_amp k1 v1 hk1a hv1a),
    splitOnChar_no_sep '&' _ (field_no_amp k2 v2 hk2a hv2a),
    List.filterMap_cons, qs_field_some k1 v1 hk1e hv1,
    List.filterMap_cons, qs_field_some k2 v2 hk2e hv2, List.filterMap_nil]

/-- qsLookup through a computed pair list. -/
theorem qsLookup_of_pairs (q key : List Char) (ps : List (List Char × List Char))
    (h : parse_qs_pairs q = ps) :
    qsLookup q key = ps.findSome? (fun p => if p.1 = key then some p.2 else none) := by
  unfold qsLookup
  rw [h]

/-- urlQuery of a hash-free URL whose first question mark opens the query. -/
theorem urlQuery_split (pre q : List Char)
    (hpre : ∀ c ∈ pre, ¬(c = '#') ∧ ¬(c = '?')) (hq : ∀ c ∈ q, ¬(c = '#')) :
    urlQuery (pre ++ '?' :: q) = q := by
  unfold urlQuery
  have ht : (pre ++ '?' :: q).takeWhile (fun c => !(c = '#')) = pre ++ '?' :: q := by
    rw [List.takeWhile_eq_self_iff]
    refine forall_mem_append (fun c hc => by simp [(hpre c hc).1]) ?_
    intro c hc
    rcases List.mem_cons.mp hc with rfl | hc2
    · decide
    · simp [hq c hc2]
  rw [ht]
  dsimp only
  rw [List.dropWhile_append_of_pos (fun c hc => by simp [(hpre c hc).2]),
    List.dropWhile_cons]
  simp

/-- urlQuery of a string with neither hash nor question mark is empty. -/
theorem urlQuery_no_query (cs : List Char)
    (h : ∀ c ∈ cs, ¬(c = '#') ∧ ¬(c = '?')) : urlQuery cs = [] := by
  unfold urlQuery
  have ht : cs.takeWhile (fun c => !(c = '#')) = cs := by
    rw [List.takeWhile_eq_self_iff]
    intro c hc
    simp [(h c hc).1]
  have hd : cs.dropWhile (fun c => !(c = '?')) = [] := by
    rw [List.dropWhile_eq_nil_iff]
    intro c hc
    simp [(h c hc).2]
  rw [ht]
  dsimp only
  rw [hd]

/-- Capture step on an eleven-character id followed by anything. -/
theorem ytCapture_append (id rest : List Char) (hlen : id.length = 11)
    (hall : id.all isYTIdChar = true) : ytCapture (id ++ rest) = some id := by
  unfold ytCapture
  rw [List.take_left' hlen, if_pos (by simp [isValidYTId, hlen, hall])]

/-- A successful capture is a valid id. -/
theorem ytCapture_valid (cs v : List Char) (h : ytCapture cs = some v) :
    isValidYTId v = true := by
  unfold ytCapture at h
  dsimp only at h
  split at h
  · cases h
    assumption
  · cases h

/-- A successful alternation match is a valid id. -/
theorem ytMatchAt_valid (cs v : List Char) (h : ytMatchAt cs = some v) :
    isValidYTId v = true := by
  unfold ytMatchAt at h
  split at h
  · exact ytCapture_valid _ _ h
  · split at h
    · exact ytCapture_valid _ _ h
    · split at h
      · exact ytCapture_valid _ _ h
      · split at h
        · exact ytCapture_valid _ _ h
        · cases h

/-- A successful regex search returns a valid id. -/
theorem ytSearch_valid : ∀ (cs v : List Char), ytSearch cs = some v →
    isValidYTId v = true := by
  intro cs
  induction cs with
  | nil => intro v h; cases h
  | cons c rest ih =>
    intro v h
    rw [ytSearch] at h
    cases hm : ytMatchAt (c :: rest) with
    | some w =>
      rw [hm] at h
      cases h
      exact ytMatchAt_valid _ _ hm
    | none =>
      rw [hm] at h
      exact ih v h

/-- Search steps over a position where the alternation fails. -/
theorem ytSearch_cons_none (c : Char) (cs : List Char)
    (h : ytMatchAt (c :: cs) = none) : ytSearch (c :: cs) = ytSearch cs := by
  rw [ytSearch, h]

/-- Search succeeds at a position where the alternation matches. -/
theorem ytSearch_eq_some (cs v : List Char) (h : ytMatchAt cs = some v) :
    ytSearch cs = some v := by
  cases cs with
  | nil => cases h
  | cons c rest => rw [ytSearch, h]

/-- The alternation fails at any position not holding a y. -/
theorem ytMatchAt_ne_y (c : Char) (cs : List Char) (h : ¬(c = 'y')) :
    ytMatchAt (c :: cs) = none := by
  have hb : (('y' : Char) == c) = false := by
    simp [Ne.symm h]
  unfold ytMatchAt
  simp only [List.isPrefixOf, String.data]
  simp [hb]

/-- Search skips any y-free head. -/
theorem ytSearch_append_no_y : ∀ (pre tail : List Char),
    (∀ c ∈ pre, ¬(c = 'y')) → ytSearch (pre ++ tail) = ytSearch tail := by
  intro pre
  induction pre with
  | nil => intro tail _; rfl
  | cons c cs ih =>
    intro tail h
    rw [List.cons_append,
      ytSearch_cons_none c _ (ytMatchAt_ne_y c _ (h c (by simp))),
      ih tail (fun d hd => h d (by simp [hd]))]

/-- Alternation at a youtu.be marker captures what follows. -/
theorem ytMatchAt_youtu_be (tail : List Char) :
    ytMatchAt (("youtu.be/").data ++ tail) = ytCapture tail := by
  unfold ytMatchAt
  rw [isPrefixOf_append_self, if_pos rfl, List.drop_left' (by decide)]

/-- Alternation at a watch marker captures what follows. -/
theorem ytMatchAt_watch (tail : List Char) :
    ytMatchAt (("youtube.com/watch?v=").data ++ tail) = ytCapture tail := by
  unfold ytMatchAt
  have h1 : (("youtu.be/").data.isPrefixOf (("youtube.com/watch?v=").data ++ tail)) = false := by
    rfl
  rw [h1, if_neg (by decide), isPrefixOf_append_self, if_pos rfl,
    List.drop_left' (by decide)]

/-- Alternation at an embed marker captures what follows. -/
theorem ytMatchAt_embed (tail : List Char) :
    ytMatchAt (("youtube.com/embed/").data ++ tail) = ytCapture tail := by
  unfold ytMatchAt
  have h1 : (("youtu.be/").data.isPrefixOf (("youtube.com/embed/").data ++ tail)) = false := by
    rfl
  have h2 : (("youtube.com/watch?v=").data.isPrefixOf (("youtube.com/embed/").data ++ tail)) = false := by
    rfl
  rw [h1, if_neg (by decide), h2, if_neg (by decide), isPrefixOf_append_self,
    if_pos rfl, List.drop_left' (by decide)]

/-- Alternation at a shorts marker captures what follows. -/
theorem ytMatchAt_shorts (tail : List Char) :
    ytMatchAt (("youtube.com/shorts/").data ++ tail) = ytCapture tail := by
  unfold ytMatchAt
  have h1 : (("youtu.be/").data.isPrefixOf (("youtube.com/shorts/").data ++ tail)) = false := by
    rfl
  have h2 : (("youtube.com/watch?v=").data.isPrefixOf (("youtube.com/shorts/").data ++ tail)) = false := by
    rfl
  have h3 : (("youtube.com/embed/").data.isPrefixOf (("youtube.com/shorts/").data ++ tail)) = false := by
    rfl
  rw [h1, if_neg (by decide), h2, if_neg (by decide), h3, if_neg (by decide),
    isPrefixOf_append_self, if_pos rfl, List.drop_left' (by decide)]

/-- Bundle of disequality facts for id-class strings. -/
theorem id_facts (id : List Char) (hall : id.all isYTIdChar = true) :
    (∀ c ∈ id, pyIsSpace c = false) ∧ (∀ c ∈ id, ¬(c = '#')) ∧
    (∀ c ∈ id, ¬(c = '?')) ∧ (∀ c ∈ id, ¬(c = '&')) ∧
    (∀ c ∈ id, ¬(c = '=')) ∧ (∀ c ∈ id, ¬(c = ':')) ∧
    (∀ c ∈ id, ¬(c = 'y') → True) := by
  have hm : ∀ c ∈ id, isYTIdChar c = true := fun c hc => List.all_eq_true.mp hall c hc
  exact ⟨fun c hc => not_space_of_ytIdChar c (hm c hc),
    fun c hc => ne_of_class _ c _ (hm c hc) (by decide),
    fun c hc => ne_of_class _ c _ (hm c hc) (by decide),
    fun c hc => ne_of_class _ c _ (hm c hc) (by decide),
    fun c hc => ne_of_class _ c _ (hm c hc) (by decide),
    fun c hc => ne_of_class _ c _ (hm c hc) (by decide),
    fun _ _ _ => trivial⟩

/-- Bundle of disequality facts for offset-class strings. -/
theorem offset_facts (t : List Char) (hall : t.all isOffsetChar = true) :
    (∀ c ∈ t, pyIsSpace c = false) ∧ (∀ c ∈ t, ¬(c = '#')) ∧
    (∀ c ∈ t, ¬(c = '?')) ∧ (∀ c ∈ t, ¬(c = '&')) ∧
    (∀ c ∈ t, ¬(c = '=')) ∧ (∀ c ∈ t, ¬(c = ':')) := by
  have hm : ∀ c ∈ t, isOffsetChar c = true := fun c hc => List.all_eq_true.mp hall c hc
  exact ⟨fun c hc => not_space_of_offsetChar c (hm c hc),
    fun c hc => ne_of_class _ c _ (hm c hc) (by decide),
    fun c hc => ne_of_class _ c _ (hm c hc) (by decide),
    fun c hc => ne_of_class _ c _ (hm c hc) (by decide),
    fun c hc => ne_of_class _ c _ (hm c hc) (by decide),
    fun c hc => ne_of_class _ c _ (hm c hc) (by decide)⟩

/-- Pointwise facts of a concrete whitespace-free literal. -/
theorem lit_no_space (l : List Char) (hl : l.all (fun c => !pyIsSpace c) = true) :
    ∀ c ∈ l, pyIsSpace c = false := by
  intro c hc
  simpa using List.all_eq_true.mp hl c hc

/-- URL branch of parse_youtube_value on a canonical query decomposition. -/
theorem parse_youtube_url (pre q : List Char)
    (hns : ∀ c ∈ pre ++ '?' :: q, pyIsSpace c = false)
    (hpre : ∀ c ∈ pre, ¬(c = '#') ∧ ¬(c = '?'))
    (hq : ∀ c ∈ q, ¬(c = '#'))
    (hhttps : startsWithHttp (pre ++ '?' :: q) = true) :
    parse_youtube_value (pre ++ '?' :: q) =
      ((match qsLookup q (("v").data) with
        | some v => some v
        | none => ytSearch (pre ++ '?' :: q)), qsStart q) := by
  unfold parse_youtube_value
  try dsimp only
  rw [pyStrip_eq_self _ hns, if_pos hhttps, urlQuery_split pre q hpre hq]

/-- URL branch of parse_youtube_value when no query is present. -/
theorem parse_youtube_url_nq (s : List Char)
    (hns : ∀ c ∈ s, pyIsSpace c = false)
    (hnoq : ∀ c ∈ s, ¬(c = '#') ∧ ¬(c = '?'))
    (hhttps : startsWithHttp s = true) :
    parse_youtube_value s = (ytSearch s, none) := by
  unfold parse_youtube_value
  try dsimp only
  rw [pyStrip_eq_self _ hns, if_pos hhttps, urlQuery_no_query s hnoq]
  rfl

/-- contains is false for an element outside the list's character class. -/
theorem contains_false_of_class (f : Char → Bool) (x : Char) :
    ∀ (l : List Char), l.all f = true → f x = false → l.contains x = false := by
  intro l
  induction l with
  | nil => intro _ _; rfl
  | cons a as ih =>
    intro hl hx
    have ha : f a = true := List.all_eq_true.mp hl a (by simp)
    have has : as.all f = true :=
      List.all_eq_true.mpr (fun c hc => List.all_eq_true.mp hl c (by simp [hc]))
    rw [List.contains_cons, ih has hx]
    have hne : a ≠ x := ne_of_class f a x ha hx
    simp [Ne.symm hne]

/-- contains finds an explicit occurrence. -/
theorem contains_append_self (x : Char) : ∀ (a b : List Char),
    (a ++ x :: b).contains x = true := by
  intro a b
  induction a with
  | nil => simp [List.contains_cons]
  | cons c a' ih => rw [List.cons_append, List.contains_cons, ih]; simp

/-- Capture of an exactly-eleven-character id at the end of the string. -/
theorem ytCapture_exact (id : List Char) (hlen : id.length = 11)
    (hall : id.all isYTIdChar = true) : ytCapture id = some id := by
  have h := ytCapture_append id [] hlen hall
  rwa [List.append_nil] at h

/-- qsStart of a single t field. -/
theorem qsStart_t_field (tstr : List Char) (ht : tstr ≠ [])
    (ta : ∀ c ∈ tstr, ¬(c = '&')) :
    qsStart ((("t").data) ++ '=' :: tstr) = some (parse_yt_time tstr) := by
  have hpairs := parse_qs_pairs_single (("t").data) tstr (by decide) (by decide) ta ht
  unfold qsStart
  rw [qsLookup_of_pairs _ ((("t").data)) _ hpairs,
    qsLookup_of_pairs _ ((("start").data)) _ hpairs]
  rfl

/-- qsStart of a single start field. -/
theorem qsStart_start_field (tstr : List Char) (ht : tstr ≠ [])
    (ta : ∀ c ∈ tstr, ¬(c = '&')) :
    qsStart ((("start").data) ++ '=' :: tstr) = some (parse_yt_time tstr) := by
  have hpairs := parse_qs_pairs_single (("start").data) tstr (by decide) (by decide) ta ht
  unfold qsStart
  rw [qsLookup_of_pairs _ ((("t").data)) _ hpairs,
    qsLookup_of_pairs _ ((("start").data)) _ hpairs]
  rfl

/-- No v key is found in a single t field. -/
theorem qsLookup_v_t_field (tstr : List Char) (ht : tstr ≠ [])
    (ta : ∀ c ∈ tstr, ¬(c = '&')) :
    qsLookup ((("t").data) ++ '=' :: tstr) (("v").data) = none := by
  have hpairs := parse_qs_pairs_single (("t").data) tstr (by decide) (by decide) ta ht
  rw [qsLookup_of_pairs _ _ _ hpairs]
  rfl

/-- No v key is found in a single start field. -/
theorem qsLookup_v_start_field (tstr : List Char) (ht : tstr ≠ [])
    (ta : ∀ c ∈ tstr, ¬(c = '&')) :
    qsLookup ((("start").data) ++ '=' :: tstr) (("v").data) = none := by
  have hpairs := parse_qs_pairs_single (("start").data) tstr (by decide) (by decide) ta ht
  rw [qsLookup_of_pairs _ _ _ hpairs]
  rfl

/-- Watch URL with a t parameter. -/
theorem parse_watch_offset (id tstr : List Char) (hlen : id.length = 11)
    (hall : id.all isYTIdChar = true) (ht : tstr ≠ [])
    (htc : tstr.all isOffsetChar = true) :
    parse_youtube_value ((("https://www.youtube.com/watch?v=").data) ++ id ++
        (("&t=").data) ++ tstr) = (some id, some (parse_yt_time tstr)) := by
  obtain ⟨idns, idh, idq, ida, ide, idc, -⟩ := id_facts id hall
  obtain ⟨tns, th, tq, ta, te, tc⟩ := offset_facts tstr htc
  have hidne : id ≠ [] := by intro h0; rw [h0] at hlen; cases hlen
  have e : (("https://www.youtube.com/watch?v=").data) ++ id ++ (("&t=").data) ++ tstr =
      (("https://www.youtube.com/watch").data) ++ '?' ::
        (((("v").data) ++ '=' :: id) ++ '&' :: ((("t").data) ++ '=' :: tstr)) := by
    simp only [List.append_assoc]
    try rfl
  rw [e]
  have hns : ∀ c ∈ (("https://www.youtube.com/watch").data) ++ '?' ::
      (((("v").data) ++ '=' :: id) ++ '&' :: ((("t").data) ++ '=' :: tstr)),
      pyIsSpace c = false := by
    refine forall_mem_append (lit_no_space _ (by decide)) ?_
    refine List.forall_mem_cons.mpr ⟨by decide, ?_⟩
    refine forall_mem_append
      (forall_mem_append (lit_no_space _ (by decide))
        (List.forall_mem_cons.mpr ⟨by decide, idns⟩)) ?_
    exact List.forall_mem_cons.mpr ⟨by decide,
      forall_mem_append (lit_no_space _ (by decide))
        (List.forall_mem_cons.mpr ⟨by decide, tns⟩)⟩
  have hqh : ∀ c ∈ ((("v").data) ++ '=' :: id) ++ '&' :: ((("t").data) ++ '=' :: tstr),
      ¬(c = '#') := by
    refine forall_mem_append
      (forall_mem_append (by decide) (List.forall_mem_cons.mpr ⟨by decide, idh⟩)) ?_
    exact List.forall_mem_cons.mpr ⟨by decide,
      forall_mem_append (by decide) (List.forall_mem_cons.mpr ⟨by decide, th⟩)⟩
  have hhttps : startsWithHttp ((("https://www.youtube.com/watch").data) ++ '?' ::
      (((("v").data) ++ '=' :: id) ++ '&' :: ((("t").data) ++ '=' :: tstr))) = true := by
    have e2 : (("https://www.youtube.com/watch").data) ++ '?' ::
        (((("v").data) ++ '=' :: id) ++ '&' :: ((("t").data) ++ '=' :: tstr)) =
        (("https://").data) ++ ((("www.youtube.com/watch").data) ++ '?' ::
          (((("v").data) ++ '=' :: id) ++ '&' :: ((("t").data) ++ '=' :: tstr))) := by
      simp only [List.append_assoc]
      try rfl
    rw [e2, startsWithHttp_https]
  rw [parse_youtube_url _ _ hns (by decide) hqh hhttps]
  have hpairs := parse_qs_pairs_pair (("v").data) id (("t").data) tstr
    (by decide) (by decide) ida hidne (by decide) (by decide) ta ht
  have hv : qsLookup (((("v").data) ++ '=' :: id) ++ '&' :: ((("t").data) ++ '=' :: tstr))
      (("v").data) = some id := by
    rw [qsLookup_of_pairs _ _ _ hpairs]
    rfl
  have hstart : qsStart (((("v").data) ++ '=' :: id) ++ '&' :: ((("t").data) ++ '=' :: tstr))
      = some (parse_yt_time tstr) := by
    unfold qsStart
    rw [qsLookup_of_pairs _ ((("t").data)) _ hpairs,
      qsLookup_of_pairs _ ((("start").data)) _ hpairs]
    rfl
  rw [hv, hstart]

/-- Watch URL without a parameter. -/
theorem parse_watch_plain (id : List Char) (hlen : id.length = 11)
    (hall : id.all isYTIdChar = true) :
    parse_youtube_value ((("https://www.youtube.com/watch?v=").data) ++ id) =
      (some id, none) := by
  obtain ⟨idns, idh, idq, ida, ide, idc, -⟩ := id_facts id hall
  have hidne : id ≠ [] := by intro h0; rw [h0] at hlen; cases hlen
  have e : (("https://www.youtube.com/watch?v=").data) ++ id =
      (("https://www.youtube.com/watch").data) ++ '?' :: ((("v").data) ++ '=' :: id) := by
    simp only [List.append_assoc]
    try rfl
  rw [e]
  have hns : ∀ c ∈ (("https://www.youtube.com/watch").data) ++ '?' ::
      ((("v").data) ++ '=' :: id), pyIsSpace c = false := by
    refine forall_mem_append (lit_no_space _ (by decide)) ?_
    refine List.forall_mem_cons.mpr ⟨by decide, ?_⟩
    exact forall_mem_append (lit_no_space _ (by decide))
      (List.forall_mem_cons.mpr ⟨by decide, idns⟩)
  have hqh : ∀ c ∈ (("v").data) ++ '=' :: id, ¬(c = '#') :=
    forall_mem_append (by decide) (List.forall_mem_cons.mpr ⟨by decide, idh⟩)
  have hhttps : startsWithHttp ((("https://www.youtube.com/watch").data) ++ '?' ::
      ((("v").data) ++ '=' :: id)) = true := by
    have e2 : (("https://www.youtube.com/watch").data) ++ '?' ::
        ((("v").data) ++ '=' :: id) =
        (("https://").data) ++ ((("www.youtube.com/watch").data) ++ '?' ::
          ((("v").data) ++ '=' :: id)) := by
      simp only [List.append_assoc]
      try rfl
    rw [e2, startsWithHttp_https]
  rw [parse_youtube_url _ _ hns (by decide) hqh hhttps]
  have hpairs := parse_qs_pairs_single (("v").data) id (by decide) (by decide) ida hidne
  have hv : qsLookup ((("v").data) ++ '=' :: id) (("v").data) = some id := by
    rw [qsLookup_of_pairs _ _ _ hpairs]
    rfl
  have hstart : qsStart ((("v").data) ++ '=' :: id) = none := by
    unfold qsStart
    rw [qsLookup_of_pairs _ ((("t").data)) _ hpairs,
      qsLookup_of_pairs _ ((("start").data)) _ hpairs]
    rfl
  rw [hv, hstart]

/-- Short youtu.be URL with a t parameter. -/
theorem parse_youtu_be_offset (id tstr : List Char) (hlen : id.length = 11)
    (hall : id.all isYTIdChar = true) (ht : tstr ≠ [])
    (htc : tstr.all isOffsetChar = true) :
    parse_youtube_value ((("https://youtu.be/").data) ++ id ++ (("?t=").data) ++ tstr)
      = (some id, some (parse_yt_time tstr)) := by
  obtain ⟨idns, idh, idq, ida, ide, idc, -⟩ := id_facts id hall
  obtain ⟨tns, th, tq, ta, te, tc⟩ := offset_facts tstr htc
  have e : (("https://youtu.be/").data) ++ id ++ (("?t=").data) ++ tstr =
      ((("https://youtu.be/").data) ++ id) ++ '?' :: ((("t").data) ++ '=' :: tstr) := by
    simp only [List.append_assoc]
    try rfl
  rw [e]
  have hns : ∀ c ∈ ((("https://youtu.be/").data) ++ id) ++ '?' ::
      ((("t").data) ++ '=' :: tstr), pyIsSpace c = false := by
    refine forall_mem_append (forall_mem_append (lit_no_space _ (by decide)) idns) ?_
    exact List.forall_mem_cons.mpr ⟨by decide,
      forall_mem_append (lit_no_space _ (by decide))
        (List.forall_mem_cons.mpr ⟨by decide, tns⟩)⟩
  have hpre : ∀ c ∈ (("https://youtu.be/").data) ++ id, ¬(c = '#') ∧ ¬(c = '?') :=
    forall_mem_append (by decide) (fun c hc => ⟨idh c hc, idq c hc⟩)
  have hqh : ∀ c ∈ (("t").data) ++ '=' :: tstr, ¬(c = '#') :=
    forall_mem_append (by decide) (List.forall_mem_cons.mpr ⟨by decide, th⟩)
  have e2 : ((("https://youtu.be/").data) ++ id) ++ '?' :: ((("t").data) ++ '=' :: tstr) =
      (("https://").data) ++ ((("youtu.be/").data) ++
        (id ++ '?' :: ((("t").data) ++ '=' :: tstr))) := by
    simp only [List.append_assoc]
    try rfl
  have hhttps : startsWithHttp (((("https://youtu.be/").data) ++ id) ++ '?' ::
      ((("t").data) ++ '=' :: tstr)) = true := by
    rw [e2, startsWithHttp_https]
  rw [parse_youtube_url _ _ hns hpre hqh hhttps]
  have hsearch : ytSearch (((("https://youtu.be/").data) ++ id) ++ '?' ::
      ((("t").data) ++ '=' :: tstr)) = some id := by
    rw [e2, ytSearch_append_no_y (("https://").data) _ (by decide)]
    exact ytSearch_eq_some _ id
      (by rw [ytMatchAt_youtu_be]; exact ytCapture_append id _ hlen hall)
  rw [qsLookup_v_t_field tstr ht ta]
  simp only [hsearch, qsStart_t_field tstr ht ta]

/-- Short youtu.be URL without a parameter. -/
theorem parse_youtu_be_plain (id : List Char) (hlen : id.length = 11)
    (hall : id.all isYTIdChar = true) :
    parse_youtube_value ((("https://youtu.be/").data) ++ id) = (some id, none) := by
  obtain ⟨idns, idh, idq, ida, ide, idc, -⟩ := id_facts id hall
  have hns : ∀ c ∈ (("https://youtu.be/").data) ++ id, pyIsSpace c = false :=
    forall_mem_append (lit_no_space _ (by decide)) idns
  have hnoq : ∀ c ∈ (("https://youtu.be/").data) ++ id, ¬(c = '#') ∧ ¬(c = '?') :=
    forall_mem_append (by decide) (fun c hc => ⟨idh c hc, idq c hc⟩)
  have e2 : (("https://youtu.be/").data) ++ id =
      (("https://").data) ++ ((("youtu.be/").data) ++ id) := by
    simp only [List.append_assoc]
    try rfl
  have hhttps : startsWithHttp ((("https://youtu.be/").data) ++ id) = true := by
    rw [e2, startsWithHttp_https]
  rw [parse_youtube_url_nq _ hns hnoq hhttps]
  have hsearch : ytSearch ((("https://youtu.be/").data) ++ id) = some id := by
    rw [e2, ytSearch_append_no_y (("https://").data) _ (by decide)]
    exact ytSearch_eq_some _ id
      (by rw [ytMatchAt_youtu_be]; exact ytCapture_exact id hlen hall)
  rw [hsearch]

/-- Shorts URL with a t parameter. -/
theorem parse_shorts_offset (id tstr : List Char) (hlen : id.length = 11)
    (hall : id.all isYTIdChar = true) (ht : tstr ≠ [])
    (htc : tstr.all isOffsetChar = true) :
    parse_youtube_value ((("https://www.youtube.com/shorts/").data) ++ id ++
      (("?t=").data) ++ tstr) = (some id, some (parse_yt_time tstr)) := by
  obtain ⟨idns, idh, idq, ida, ide, idc, -⟩ := id_facts id hall
  obtain ⟨tns, th, tq, ta, te, tc⟩ := offset_facts tstr htc
  have e : (("https://www.youtube.com/shorts/").data) ++ id ++ (("?t=").data) ++ tstr =
      ((("https://www.youtube.com/shorts/").data) ++ id) ++ '?' ::
        ((("t").data) ++ '=' :: tstr) := by
    simp only [List.append_assoc]
    try rfl
  rw [e]
  have hns : ∀ c ∈ ((("https://www.youtube.com/shorts/").data) ++ id) ++ '?' ::
      ((("t").data) ++ '=' :: tstr), pyIsSpace c = false := by
    refine forall_mem_append (forall_mem_append (lit_no_space _ (by decide)) idns) ?_
    exact List.forall_mem_cons.mpr ⟨by decide,
      forall_mem_append (lit_no_space _ (by decide))
        (List.forall_mem_cons.mpr ⟨by decide, tns⟩)⟩
  have hpre : ∀ c ∈ (("https://www.youtube.com/shorts/").data) ++ id,
      ¬(c = '#') ∧ ¬(c = '?') :=
    forall_mem_append (by decide) (fun c hc => ⟨idh c hc, idq c hc⟩)
  have hqh : ∀ c ∈ (("t").data) ++ '=' :: tstr, ¬(c = '#') :=
    forall_mem_append (by decide) (List.forall_mem_cons.mpr ⟨by decide, th⟩)
  have e2 : ((("https://www.youtube.com/shorts/").data) ++ id) ++ '?' ::
      ((("t").data) ++ '=' :: tstr) =
      (("https://").data) ++ ((("www.youtube.com/shorts/").data) ++
        (id ++ '?' :: ((("t").data) ++ '=' :: tstr))) := by
    simp only [List.append_assoc]
    try rfl
  have e3 : ((("https://www.youtube.com/shorts/").data) ++ id) ++ '?' ::
      ((("t").data) ++ '=' :: tstr) =
      (("https://www.").data) ++ ((("youtube.com/shorts/").data) ++
        (id ++ '?' :: ((("t").data) ++ '=' :: tstr))) := by
    simp only [List.append_assoc]
    try rfl
  have hhttps : startsWithHttp (((("https://www.youtube.com/shorts/").data) ++ id) ++ '?' ::
      ((("t").data) ++ '=' :: tstr)) = true := by
    rw [e2, startsWithHttp_https]
  rw [parse_youtube_url _ _ hns hpre hqh hhttps]
  have hsearch : ytSearch (((("https://www.youtube.com/shorts/").data) ++ id) ++ '?' ::
      ((("t").data) ++ '=' :: tstr)) = some id := by
    rw [e3, ytSearch_append_no_y (("https://www.").data) _ (by decide)]
    exact ytSearch_eq_some _ id
      (by rw [ytMatchAt_shorts]; exact ytCapture_append id _ hlen hall)
  rw [qsLookup_v_t_field tstr ht ta]
  simp only [hsearch, qsStart_t_field tstr ht ta]

/-- Shorts URL without a parameter. -/
theorem parse_shorts_plain (id : List Char) (hlen : id.length = 11)
    (hall : id.all isYTIdChar = true) :
    parse_youtube_value ((("https://www.youtube.com/shorts/").data) ++ id) =
      (some id, none) := by
  obtain ⟨idns, idh, idq, ida, ide, idc, -⟩ := id_facts id hall
  have hns : ∀ c ∈ (("https://www.youtube.com/shorts/").data) ++ id, pyIsSpace c = false :=
    forall_mem_append (lit_no_space _ (by decide)) idns
  have hnoq : ∀ c ∈ (("https://www.youtube.com/shorts/").data) ++ id,
      ¬(c = '#') ∧ ¬(c = '?') :=
    forall_mem_append (by decide) (fun c hc => ⟨idh c hc, idq c hc⟩)
  have e2 : (("https://www.youtube.com/shorts/").data) ++ id =
      (("https://").data) ++ ((("www.youtube.com/shorts/").data) ++ id) := by
    simp only [List.append_assoc]
    try rfl
  have e3 : (("https://www.youtube.com/shorts/").data) ++ id =
      (("https://www.").data) ++ ((("youtube.com/shorts/").data) ++ id) := by
    simp only [List.append_assoc]
    try rfl
  have hhttps : startsWithHttp ((("https://www.youtube.com/shorts/").data) ++ id) = true := by
    rw [e2, startsWithHttp_https]
  rw [parse_youtube_url_nq _ hns hnoq hhttps]
  have hsearch : ytSearch ((("https://www.youtube.com/shorts/").data) ++ id) = some id := by
    rw [e3, ytSearch_append_no_y (("https://www.").data) _ (by decide)]
    exact ytSearch_eq_some _ id
      (by rw [ytMatchAt_shorts]; exact ytCapture_exact id hlen hall)
  rw [hsearch]

/-- Embed URL with a start parameter. -/
theorem parse_embed_offset (id tstr : List Char) (hlen : id.length = 11)
    (hall : id.all isYTIdChar = true) (ht : tstr ≠ [])
    (htc : tstr.all isOffsetChar = true) :
    parse_youtube_value ((("https://www.youtube.com/embed/").data) ++ id ++
      (("?start=").data) ++ tstr) = (some id, some (parse_yt_time tstr)) := by
  obtain ⟨idns, idh, idq, ida, ide, idc, -⟩ := id_facts id hall
  obtain ⟨tns, th, tq, ta, te, tc⟩ := offset_facts tstr htc
  have e : (("https://www.youtube.com/embed/").data) ++ id ++ (("?start=").data) ++ tstr =
      ((("https://www.youtube.com/embed/").data) ++ id) ++ '?' ::
        ((("start").data) ++ '=' :: tstr) := by
    simp only [List.append_assoc]
    try rfl
  rw [e]
  have hns : ∀ c ∈ ((("https://www.youtube.com/embed/").data) ++ id) ++ '?' ::
      ((("start").data) ++ '=' :: tstr), pyIsSpace c = false := by
    refine forall_mem_append (forall_mem_append (lit_no_space _ (by decide)) idns) ?_
    exact List.forall_mem_cons.mpr ⟨by decide,
      forall_mem_append (lit_no_space _ (by decide))
        (List.forall_mem_cons.mpr ⟨by decide, tns⟩)⟩
  have hpre : ∀ c ∈ (("https://www.youtube.com/embed/").data) ++ id,
      ¬(c = '#') ∧ ¬(c = '?') :=
    forall_mem_append (by decide) (fun c hc => ⟨idh c hc, idq c hc⟩)
  have hqh : ∀ c ∈ (("start").data) ++ '=' :: tstr, ¬(c = '#') :=
    forall_mem_append (by decide) (List.forall_mem_cons.mpr ⟨by decide, th⟩)
  have e2 : ((("https://www.youtube.com/embed/").data) ++ id) ++ '?' ::
      ((("start").data) ++ '=' :: tstr) =
      (("https://").data) ++ ((("www.youtube.com/embed/").data) ++
        (id ++ '?' :: ((("start").data) ++ '=' :: tstr))) := by
    simp only [List.append_assoc]
    try rfl
  have e3 : ((("https://www.youtube.com/embed/").data) ++ id) ++ '?' ::
      ((("start").data) ++ '=' :: tstr) =
      (("https://www.").data) ++ ((("youtube.com/embed/").data) ++
        (id ++ '?' :: ((("start").data) ++ '=' :: tstr))) := by
    simp only [List.append_assoc]
    try rfl
  have hhttps : startsWithHttp (((("https://www.youtube.com/embed/").data) ++ id) ++ '?' ::
      ((("start").data) ++ '=' :: tstr)) = true := by
    rw [e2, startsWithHttp_https]
  rw [parse_youtube_url _ _ hns hpre hqh hhttps]
  have hsearch : ytSearch (((("https://www.youtube.com/embed/").data) ++ id) ++ '?' ::
      ((("start").data) ++ '=' :: tstr)) = some id := by
    rw [e3, ytSearch_append_no_y (("https://www.").data) _ (by decide)]
    exact ytSearch_eq_some _ id
      (by rw [ytMatchAt_embed]; exact ytCapture_append id _ hlen hall)
  rw [qsLookup_v_start_field tstr ht ta]
  simp only [hsearch, qsStart_start_field tstr ht ta]

/-- Embed URL without a parameter. -/
theorem parse_embed_plain (id : List Char) (hlen : id.length = 11)
    (hall : id.all isYTIdChar = true) :
    parse_youtube_value ((("https://www.youtube.com/embed/").data) ++ id) =
      (some id, none) := by
  obtain ⟨idns, idh, idq, ida, ide, idc, -⟩ := id_facts id hall
  have hns : ∀ c ∈ (("https://www.youtube.com/embed/").data) ++ id, pyIsSpace c = false :=
    forall_mem_append (lit_no_space _ (by decide)) idns
  have hnoq : ∀ c ∈ (("https://www.youtube.com/embed/").data) ++ id,
      ¬(c = '#') ∧ ¬(c = '?') :=
    forall_mem_append (by decide) (fun c hc => ⟨idh c hc, idq c hc⟩)
  have e2 : (("https://www.youtube.com/embed/").data) ++ id =
      (("https://").data) ++ ((("www.youtube.com/embed/").data) ++ id) := by
    simp only [List.append_assoc]
    try rfl
  have e3 : (("https://www.youtube.com/embed/").data) ++ id =
      (("https://www.").data) ++ ((("youtube.com/embed/").data) ++ id) := by
    simp only [List.append_assoc]
    try rfl
  have hhttps : startsWithHttp ((("https://www.youtube.com/embed/").data) ++ id) = true := by
    rw [e2, startsWithHttp_https]
  rw [parse_youtube_url_nq _ hns hnoq hhttps]
  have hsearch : ytSearch ((("https://www.youtube.com/embed/").data) ++ id) = some id := by
    rw [e3, ytSearch_append_no_y (("https://www.").data) _ (by decide)]
    exact ytSearch_eq_some _ id
      (by rw [ytMatchAt_embed]; exact ytCapture_exact id hlen hall)
  rw [hsearch]

/-- Raw id with an appended t suffix. -/
theorem parse_raw_offset (id tstr : List Char) (hlen : id.length = 11)
    (hall : id.all isYTIdChar = true) (ht : tstr ≠ [])
    (htc : tstr.all isOffsetChar = true) :
    parse_youtube_value (id ++ (("&t=").data) ++ tstr) =
      (some id, some (parse_yt_time tstr)) := by
  obtain ⟨idns, idh, idq, ida, ide, idc, -⟩ := id_facts id hall
  obtain ⟨tns, th, tq, ta, te, tc⟩ := offset_facts tstr htc
  have e : id ++ (("&t=").data) ++ tstr = id ++ '&' :: ((("t").data) ++ '=' :: tstr) := by
    simp only [List.append_assoc]
    try rfl
  rw [e]
  have hns : ∀ c ∈ id ++ '&' :: ((("t").data) ++ '=' :: tstr), pyIsSpace c = false :=
    forall_mem_append idns (List.forall_mem_cons.mpr ⟨by decide,
      forall_mem_append (lit_no_space _ (by decide))
        (List.forall_mem_cons.mpr ⟨by decide, tns⟩)⟩)
  have hcolon : ∀ c ∈ id ++ '&' :: ((("t").data) ++ '=' :: tstr), ¬(c = ':') :=
    forall_mem_append idc (List.forall_mem_cons.mpr ⟨by decide,
      forall_mem_append (by decide) (List.forall_mem_cons.mpr ⟨by decide, tc⟩)⟩)
  unfold parse_youtube_value
  try dsimp only
  rw [pyStrip_eq_self _ hns]
  rw [if_neg (by rw [startsWithHttp_false_of_no_colon _ hcolon]; decide)]
  rw [if_pos (contains_append_self '&' id _)]
  try dsimp only
  have hhead : (id ++ '&' :: ((("t").data) ++ '=' :: tstr)).takeWhile
      (fun c => !(c = '&')) = id := by
    rw [List.takeWhile_append_of_pos (fun c hc => by simp [ida c hc]),
      List.takeWhile_cons]
    simp
  have hdrop : ((id ++ '&' :: ((("t").data) ++ '=' :: tstr)).dropWhile
      (fun c => !(c = '&'))).drop 1 = (("t").data) ++ '=' :: tstr := by
    rw [List.dropWhile_append_of_pos (fun c hc => by simp [ida c hc]),
      List.dropWhile_cons]
    simp
  rw [hhead, hdrop, qsStart_t_field tstr ht ta,
    if_pos (show isValidYTId id = true by simp [isValidYTId, hlen, hall])]

/-- Bare raw id. -/
theorem parse_raw_plain (id : List Char) (hlen : id.length = 11)
    (hall : id.all isYTIdChar = true) :
    parse_youtube_value id = (some id, none) := by
  obtain ⟨idns, idh, idq, ida, ide, idc, -⟩ := id_facts id hall
  unfold parse_youtube_value
  try dsimp only
  rw [pyStrip_eq_self _ idns]
  rw [if_neg (by rw [startsWithHttp_false_of_no_colon _ idc]; decide)]
  rw [if_neg (by rw [contains_false_of_class isYTIdChar '&' id hall (by decide)]; decide)]
  rw [if_pos (show isValidYTId id = true by simp [isValidYTId, hlen, hall])]

/-! ## Claim theorems -/

/-- C4 (code_bug evidence): transcribe_upload streams the upload in bounded
chunks, but the source never awaits out.write, so the saved temporary file
ends up empty and differs from the uploaded bytes; awaiting the writes (the
evident intent) would store exactly the uploaded bytes. -/
theorem upload_save_loop_loses_all_bytes :
    save_upload false [104, 105, 33] = [] ∧
    ([104, 105, 33] : List Nat) ≠ [] ∧
    save_upload true [104, 105, 33] = [104, 105, 33] :=
  ⟨save_upload_loop_false _ _, by decide, save_upload_loop_true _ _⟩

/-- C5: with both providers always failing, translate_text_with_backoff
makes exactly 3 outer attempts; with the DeepL key configured each attempt
calls DeepL once then Google once, the outer backoff sleeps are 1, 2 and 4
seconds after the successive failed attempts, and the call ends with
RateLimitError; without the key only Google is called, once per attempt. -/
theorem translator_exhaustion_behaviour
    (deepl google : Nat → Except Unit String) (text tl : String)
    (hd : ∀ n, deepl n = .error ()) (hg : ∀ n, google n = .error ())
    (htext : text ≠ "") :
    (translate_text_with_backoff true deepl google text tl).1 = .error () ∧
    (translate_text_with_backoff true deepl google text tl).2 =
      [.deeplCall, .sleep 1, .googleCall, .sleep 1, .backoffSleep 1,
       .deeplCall, .sleep 1, .googleCall, .sleep 1, .backoffSleep 2,
       .deeplCall, .sleep 1, .googleCall, .sleep 1, .backoffSleep 4] ∧
    (translate_text_with_backoff false deepl google text tl).1 = .error () ∧
    (translate_text_with_backoff false deepl google text tl).2 =
      [.googleCall, .sleep 1, .backoffSleep 1,
       .googleCall, .sleep 1, .backoffSleep 2,
       .googleCall, .sleep 1, .backoffSleep 4] := by
  refine ⟨?_, ?_, ?_, ?_⟩ <;>
    simp [translate_text_with_backoff, htext, translate_attempts, deepl_translate,
      deepl_translate_loop, google_translate, google_translate_loop, hd, hg]

/-- C5 witness at concrete always-failing providers. -/
theorem translator_exhaustion_behaviour_witness :
    (translate_text_with_backoff true (fun _ => .error ()) (fun _ => .error ())
      "hola" "EN-GB").1 = .error () :=
  (translator_exhaustion_behaviour (fun _ => .error ()) (fun _ => .error ())
    "hola" "EN-GB" (fun _ => rfl) (fun _ => rfl) (by decide)).1

/-- C6: the five specified offsets parse as stated; for a non-pure-digit
input each h, m, s group contributes value*3600, value*60 and value to the
total; a zero unit total with a digit somewhere falls back to the first
digit run, read as seconds. -/
theorem time_offset_parsing :
    parse_yt_time ("55".data) = 55 ∧
    parse_yt_time ("55s".data) = 55 ∧
    parse_yt_time ("1m30s".data) = 90 ∧
    parse_yt_time ("2h3m".data) = 7380 ∧
    parse_yt_time ("0".data) = 0 ∧
    (∀ t : List Char, strIsDigit t = false → hmsGroupsSum t ≠ 0 →
      parse_yt_time t = hmsGroupsSum t) ∧
    (∀ t run, strIsDigit t = false → hmsGroupsSum t = 0 →
      firstDigitRun t = some run → parse_yt_time t = digitsVal run) := by
  refine ⟨by decide, by decide, by decide, by decide, by decide, ?_, ?_⟩
  · intro t h1 h2
    rw [parse_yt_time_eq t h1, if_neg h2]
  · intro t run h1 h2 h3
    rw [parse_yt_time_eq t h1, if_pos h2, h3]

/-- C6 witness for the two conditional clauses. -/
theorem time_offset_parsing_witness :
    parse_yt_time ("90s".data) = hmsGroupsSum ("90s".data) ∧
    parse_yt_time ("7x".data) = digitsVal ("7".data) :=
  ⟨time_offset_parsing.2.2.2.2.2.1 ("90s".data) (by decide) (by decide),
   time_offset_parsing.2.2.2.2.2.2 ("7x".data) ("7".data) (by decide) (by decide)
     (by decide)⟩

/-- C8 (counterexample): the normalization upper-cases every code first, so
the lower-case code de is passed to the providers as DE, not unchanged. -/
theorem target_language_de_is_changed :
    normalize_target_language "de" = "DE" ∧ ("DE" : String) ≠ "de" :=
  ⟨by decide, by decide⟩

/-- C8 (amended): en and EN map to EN-GB, pt and PT map to PT-PT, and every
other code is passed through after upper-casing (unchanged only when it is
already upper-case). -/
theorem target_language_normalization (s : String)
    (h1 : pyUpper s ≠ "EN") (h2 : pyUpper s ≠ "PT") :
    normalize_target_language "en" = "EN-GB" ∧
    normalize_target_language "EN" = "EN-GB" ∧
    normalize_target_language "pt" = "PT-PT" ∧
    normalize_target_language "PT" = "PT-PT" ∧
    normalize_target_language s = pyUpper s := by
  refine ⟨by decide, by decide, by decide, by decide, ?_⟩
  simp [normalize_target_language, h1, h2]

/-- C8 witness: FR passes through. -/
theorem target_language_normalization_witness :
    normalize_target_language "FR" = pyUpper "FR" :=
  (target_language_normalization "FR" (by decide) (by decide)).2.2.2.2

/-- C9 (counterexample): under the shipped configuration default for
YT_EXTRACTOR_ARGS the command gets the identical extractor-args value with
and without cookies, refuting the claim for every such invocation. -/
theorem extractor_args_same_under_default_config :
    build_extractor_args YT_EXTRACTOR_ARGS_default true =
      build_extractor_args YT_EXTRACTOR_ARGS_default false := by decide

/-- C9 (amended): only when the configured YT_EXTRACTOR_ARGS strips to the
empty string does the cookie state select between two distinct built-in
extractor client-negotiation profiles; a nonempty configured value is used
verbatim in both cases. -/
theorem extractor_args_differ_when_config_blank (cfg : String)
    (hblank : (⟨pyStrip cfg.data⟩ : String) = "") :
    build_extractor_args cfg true ≠ build_extractor_args cfg false ∧
    build_extractor_args cfg true = cookieful_extractor_args ∧
    build_extractor_args cfg false = cookieless_extractor_args := by
  refine ⟨?_, ?_, ?_⟩ <;> simp [build_extractor_args, hblank] <;> decide

/-- C9 witness at the blank configuration. -/
theorem extractor_args_differ_when_config_blank_witness :
    build_extractor_args "" true ≠ build_extractor_args "" false :=
  (extractor_args_differ_when_config_blank "" (by decide)).1

/-- Scheduled cleanup paths of an upload request, characterised by its
result: everything created is scheduled when a response was built, nothing
is scheduled when the handler raised. -/
theorem transcribe_upload_scheduled_char (filename mime : String) (data : List Nat)
    (ff : Except String Unit) (stt : Except String SttOut) (tr : Except String String) :
    (transcribe_upload filename mime data ff stt tr).scheduled =
      (match (transcribe_upload filename mime data ff stt tr).result with
       | .ok _ => (transcribe_upload filename mime data ff stt tr).created
       | .error _ => []) := by
  by_cases hm : (is_audio mime || is_video mime) = true
  · rcases hE : extract_audio_to_m4a ("uploads/upload" ++ pathSuffix filename) ff with e | u
    · unfold transcribe_upload
      dsimp only
      rw [hm, hE]
      rfl
    · rcases stt with e2 | s
      · unfold transcribe_upload
        dsimp only
        rw [hm, hE]
        rfl
      · rcases tr with e3 | t <;>
          (unfold transcribe_upload; dsimp only; rw [hm, hE]; rfl)
  · have hm' : (is_audio mime || is_video mime) = false := by
      simpa using hm
    unfold transcribe_upload
    dsimp only
    rw [hm']
    rfl

/-- Scheduled cleanup paths of a YouTube request, characterised the same
way. -/
theorem transcribe_youtube_scheduled_char (dl : Except String String)
    (stt : Except String SttOut) (tr : Except String String) :
    (transcribe_youtube dl stt tr).scheduled =
      (match (transcribe_youtube dl stt tr).result with
       | .ok _ => (transcribe_youtube dl stt tr).created
       | .error _ => []) := by
  rcases dl with e | p
  · simp [transcribe_youtube]
  · rcases stt with e2 | s
    · simp [transcribe_youtube]
    · rcases tr with e3 | t <;> simp [transcribe_youtube]

/-- Result of an upload request does not depend on the uploaded bytes. -/
theorem transcribe_upload_result_ignores_data (filename mime : String)
    (d d2 : List Nat) (ff : Except String Unit) (stt : Except String SttOut)
    (tr : Except String String) :
    (transcribe_upload filename mime d ff stt tr).result =
      (transcribe_upload filename mime d2 ff stt tr).result := by
  by_cases hm : (is_audio mime || is_video mime) = true
  · rcases hE : extract_audio_to_m4a ("uploads/upload" ++ pathSuffix filename) ff with e | u
    · unfold transcribe_upload
      dsimp only
      rw [hm, hE]
      rfl
    · rcases stt with e2 | s
      · unfold transcribe_upload
        dsimp only
        rw [hm, hE]
        rfl
      · rcases tr with e3 | t <;>
          (unfold transcribe_upload; dsimp only; rw [hm, hE]; rfl)
  · have hm' : (is_audio mime || is_video mime) = false := by
      simpa using hm
    unfold transcribe_upload
    dsimp only
    rw [hm']
    rfl

/-- C1: when recognition succeeded, any translation failure is absorbed on
both endpoints: the request returns a response whose English transcript is
the original transcript and whose translation_status is failed; a failure
of the downloader, the mime check, the transcoder or the recogniser is
fatal to the request. -/
theorem translation_failure_is_absorbed
    (path e dl_err stt_err ff_err : String) (stt : SttOut)
    (filename mime : String) (data : List Nat)
    (hm : (is_audio mime || is_video mime) = true)
    (hext : validate_file_extension_ok ("uploads/upload" ++ pathSuffix filename) = true) :
    (transcribe_youtube (.ok path) (.ok stt) (.error e)).result =
      .ok { source := "youtube", detected_language := stt.detected_lang,
            duration_sec := some stt.duration_sec,
            transcript_original := stt.full_text,
            transcript_english := stt.full_text,
            segments := mkSegments stt.segments_raw,
            translation_status := some "failed" } ∧
    (transcribe_upload filename mime data (.ok ()) (.ok stt) (.error e)).result =
      .ok { source := "upload", detected_language := stt.detected_lang,
            duration_sec := some stt.duration_sec,
            transcript_original := stt.full_text,
            transcript_english := stt.full_text,
            segments := mkSegments stt.segments_raw,
            translation_status := some "failed" } ∧
    (transcribe_youtube (.error dl_err) (.ok stt) (.error e)).result =
      .error (.http 400 ("yt-dlp failed: " ++ dl_err)) ∧
    (transcribe_youtube (.ok path) (.error stt_err) (.error e)).result =
      .error (.uncaught stt_err) ∧
    (∀ mime2, (is_audio mime2 || is_video mime2) = false →
      (transcribe_upload filename mime2 data (.ok ()) (.ok stt) (.error e)).result =
        .error (.http 415 ("Unsupported content type: " ++ mime2))) ∧
    (transcribe_upload filename mime data (.error ff_err) (.ok stt) (.error e)).result =
      .error (.uncaught ff_err) ∧
    (transcribe_upload filename mime data (.ok ()) (.error stt_err) (.error e)).result =
      .error (.uncaught stt_err) := by
  have hok : extract_audio_to_m4a ("uploads/upload" ++ pathSuffix filename) (.ok ()) = .ok () := by
    unfold extract_audio_to_m4a
    rw [hext]
    rfl
  have herr : extract_audio_to_m4a ("uploads/upload" ++ pathSuffix filename) (.error ff_err) =
      .error (.uncaught ff_err) := by
    unfold extract_audio_to_m4a
    rw [hext]
    rfl
  refine ⟨rfl, ?_, rfl, rfl, ?_, ?_, ?_⟩
  · unfold transcribe_upload
    dsimp only
    rw [hm, hok]
    rfl
  · intro mime2 hm2
    unfold transcribe_upload
    dsimp only
    rw [hm2]
    rfl
  · unfold transcribe_upload
    dsimp only
    rw [hm, herr]
    rfl
  · unfold transcribe_upload
    dsimp only
    rw [hm, hok]
    rfl

/-- C1 witness at concrete stage outcomes. -/
theorem translation_failure_is_absorbed_witness :
    (transcribe_youtube (.ok "yt/a.m4a")
        (.ok { full_text := "hola", detected_lang := "es", duration_sec := 2,
               segments_raw := [] })
        (.error "providers down")).result =
      .ok { source := "youtube", detected_language := "es",
            duration_sec := some 2, transcript_original := "hola",
            transcript_english := "hola", segments := none,
            translation_status := some "failed" } :=
  (translation_failure_is_absorbed "yt/a.m4a" "providers down" "" "" ""
      { full_text := "hola", detected_lang := "es", duration_sec := 2, segments_raw := [] }
      "a.mp3" "audio/mpeg" [] (by decide) (by decide)).1

/-- C2 (counterexample): an upload request whose recognition stage fails
fatally has created both intermediate files, yet schedules nothing for
deletion, because the source only schedules cleanup after the response is
constructed. -/
theorem cleanup_not_scheduled_on_fatal_failure :
    (transcribe_upload "a.mp3" "audio/mpeg" [7] (.ok ()) (.error "stt crashed")
        (.ok "x")).result = .error (.uncaught "stt crashed") ∧
    (transcribe_upload "a.mp3" "audio/mpeg" [7] (.ok ()) (.error "stt crashed")
        (.ok "x")).created = ["uploads/upload.mp3", "uploads/upload.m4a"] ∧
    (transcribe_upload "a.mp3" "audio/mpeg" [7] (.ok ()) (.error "stt crashed")
        (.ok "x")).scheduled = [] :=
  ⟨rfl, rfl, rfl⟩

/-- C2 (amended): cleanup of every created intermediate file is scheduled
exactly when the handler reaches response construction, which includes every
translation-failure run; on a fatal stage failure nothing is scheduled; the
cleanup pass itself is total and deletion failures can never change the
request's result. -/
theorem cleanup_scheduling_behaviour
    (filename mime : String) (data : List Nat) (ff : Except String Unit)
    (stt : Except String SttOut) (tr : Except String String)
    (dl : Except String String)
    (deleteOk deleteOk2 : String → Bool) (fs fs2 : List String) :
    (∀ resp, (transcribe_upload filename mime data ff stt tr).result = .ok resp →
      (transcribe_upload filename mime data ff stt tr).scheduled =
        (transcribe_upload filename mime data ff stt tr).created) ∧
    (∀ err, (transcribe_upload filename mime data ff stt tr).result = .error err →
      (transcribe_upload filename mime data ff stt tr).scheduled = []) ∧
    (∀ resp, (transcribe_youtube dl stt tr).result = .ok resp →
      (transcribe_youtube dl stt tr).scheduled = (transcribe_youtube dl stt tr).created) ∧
    (∀ err, (transcribe_youtube dl stt tr).result = .error err →
      (transcribe_youtube dl stt tr).scheduled = []) ∧
    (handle_upload_request filename mime data ff stt tr deleteOk fs).1 =
      (handle_upload_request filename mime data ff stt tr deleteOk2 fs2).1 := by
  refine ⟨?_, ?_, ?_, ?_, rfl⟩
  · intro resp h
    rw [transcribe_upload_scheduled_char, h]
  · intro err h
    rw [transcribe_upload_scheduled_char, h]
  · intro resp h
    rw [transcribe_youtube_scheduled_char, h]
  · intro err h
    rw [transcribe_youtube_scheduled_char, h]

/-- C2 witness: a successful run schedules both files; a translation-failed
run schedules both files as well. -/
theorem cleanup_scheduling_behaviour_witness :
    (transcribe_upload "a.mp3" "audio/mpeg" [7] (.ok ())
        (.ok { full_text := "hola", detected_lang := "es", duration_sec := 2,
               segments_raw := [] })
        (.error "providers down")).scheduled =
      (transcribe_upload "a.mp3" "audio/mpeg" [7] (.ok ())
        (.ok { full_text := "hola", detected_lang := "es", duration_sec := 2,
               segments_raw := [] })
        (.error "providers down")).created :=
  (cleanup_scheduling_behaviour "a.mp3" "audio/mpeg" [7] (.ok ())
      (.ok { full_text := "hola", detected_lang := "es", duration_sec := 2,
             segments_raw := [] })
      (.error "providers down") (.ok "p") (fun _ => true) (fun _ => false) [] []).1
    _ rfl

/-- C10: no size check exists anywhere in the upload path: the handler's
result is the same for any two uploaded byte streams, and an upload one
byte larger than MAX_UPLOAD_BYTES is processed exactly like an empty one,
succeeding whenever the stages succeed. -/
theorem upload_size_never_checked
    (filename mime : String) (d d2 : List Nat) (ff : Except String Unit)
    (stt : SttOut) (tr : Except String String)
    (hm : (is_audio mime || is_video mime) = true)
    (hext : validate_file_extension_ok ("uploads/upload" ++ pathSuffix filename) = true) :
    (transcribe_upload filename mime d ff (.ok stt) tr).result =
      (transcribe_upload filename mime d2 ff (.ok stt) tr).result ∧
    (transcribe_upload filename mime (List.replicate (MAX_UPLOAD_BYTES + 1) 0)
        (.ok ()) (.ok stt) tr).result =
      (transcribe_upload filename mime [] (.ok ()) (.ok stt) tr).result ∧
    (∃ resp, (transcribe_upload filename mime (List.replicate (MAX_UPLOAD_BYTES + 1) 0)
        (.ok ()) (.ok stt) tr).result = .ok resp) := by
  refine ⟨transcribe_upload_result_ignores_data _ _ _ _ _ _ _,
    transcribe_upload_result_ignores_data _ _ _ _ _ _ _, ?_⟩
  have hok : extract_audio_to_m4a ("uploads/upload" ++ pathSuffix filename) (.ok ()) = .ok () := by
    unfold extract_audio_to_m4a
    rw [hext]
    rfl
  rcases tr with e3 | t <;>
    exact ⟨_, by unfold transcribe_upload; dsimp only; rw [hm, hok]; rfl⟩

/-- C10 witness at a concrete oversized well-formed upload. -/
theorem upload_size_never_checked_witness :
    (transcribe_upload "a.mp3" "audio/mpeg" (List.replicate (MAX_UPLOAD_BYTES + 1) 0)
        (.ok ())
        (.ok { full_text := "hola", detected_lang := "es", duration_sec := 2,
               segments_raw := [] })
        (.ok "hello")).result =
      (transcribe_upload "a.mp3" "audio/mpeg" [] (.ok ())
        (.ok { full_text := "hola", detected_lang := "es", duration_sec := 2,
               segments_raw := [] })
        (.ok "hello")).result :=
  (upload_size_never_checked "a.mp3" "audio/mpeg" [] [7] (.ok ())
      { full_text := "hola", detected_lang := "es", duration_sec := 2, segments_raw := [] }
      (.ok "hello") (by decide) (by decide)).2.1

/-- C3 (counterexample): a URL whose v query parameter is the three-letter
string abc makes parse_youtube_value return that string as the video id,
which is not an eleven-character id, and acquisition does not fail. -/
theorem url_v_param_unvalidated :
    parse_youtube_value (("https://www.youtube.com/watch?v=abc").data) =
      (some (("abc").data), none) ∧
    isValidYTId (("abc").data) = false ∧
    download_youtube_parse_step (("https://www.youtube.com/watch?v=abc").data) =
      .ok ((("abc").data), none) := by
  refine ⟨by decide, by decide, rfl⟩

/-- C3 (amended): every id returned through the non-URL branches or through
the URL branch's regex fallback is exactly eleven characters drawn from the
id class; an id taken verbatim from a URL's v query parameter is returned
without validation; and when no id at all is extracted the downloader fails
before invoking any subprocess. -/
theorem video_id_validation :
    (∀ (value vid : List Char) (s : Option Nat),
      startsWithHttp (pyStrip value) = false →
      parse_youtube_value value = (some vid, s) → isValidYTId vid = true) ∧
    (∀ (value vid : List Char) (s : Option Nat),
      startsWithHttp (pyStrip value) = true →
      qsLookup (urlQuery (pyStrip value)) (("v").data) = none →
      parse_youtube_value value = (some vid, s) → isValidYTId vid = true) ∧
    (∀ (value : List Char) (s : Option Nat),
      parse_youtube_value value = (none, s) →
      download_youtube_parse_step value =
        .error "Could not parse a valid YouTube video ID") := by
  refine ⟨?_, ?_, ?_⟩
  · intro value vid s hhttp hp
    unfold parse_youtube_value at hp
    try dsimp only at hp
    rw [if_neg (by simp [hhttp])] at hp
    by_cases hamp : (pyStrip value).contains '&' = true
    · rw [if_pos hamp] at hp
      try dsimp only at hp
      by_cases hv : isValidYTId ((pyStrip value).takeWhile (fun c => !(c = '&'))) = true
      · rw [if_pos hv] at hp
        injection hp with h1 h2
        injection h1 with h1
        subst h1
        exact hv
      · rw [if_neg hv] at hp
        injection hp with h1 h2
        exact ytSearch_valid _ _ h1
    · rw [if_neg hamp] at hp
      by_cases hv2 : isValidYTId (pyStrip value) = true
      · rw [if_pos hv2] at hp
        injection hp with h1 h2
        injection h1 with h1
        subst h1
        exact hv2
      · rw [if_neg hv2] at hp
        injection hp with h1 h2
        exact ytSearch_valid _ _ h1
  · intro value vid s hhttp hvnone hp
    unfold parse_youtube_value at hp
    try dsimp only at hp
    rw [if_pos hhttp, hvnone] at hp
    injection hp with h1 h2
    exact ytSearch_valid _ _ h1
  · intro value s hp
    unfold download_youtube_parse_step
    rw [hp]

/-- C3 witness: a plain valid id is returned validated, and a value with no
extractable id makes the downloader fail. -/
theorem video_id_validation_witness :
    isValidYTId (("Q80-pwDrCVI").data) = true ∧
    download_youtube_parse_step (("not a video").data) =
      .error "Could not parse a valid YouTube video ID" :=
  ⟨video_id_validation.1 (("Q80-pwDrCVI").data) (("Q80-pwDrCVI").data) none
      (by decide) (by decide),
   video_id_validation.2.2 (("not a video").data) none (by decide)⟩

/-- C7: for every valid eleven-character id and every nonempty offset string
of digits and unit letters, the watch, youtu.be, shorts and embed URL
shapes, the raw id and the id with an appended t suffix all normalize to
the same (video id, start offset) pair: the offset-carrying shapes yield
(id, the parsed offset) and the parameterless shapes yield (id, no offset). -/
theorem url_shapes_equivalent (id tstr : List Char) (hlen : id.length = 11)
    (hall : id.all isYTIdChar = true) (ht : tstr ≠ [])
    (htc : tstr.all isOffsetChar = true) :
    parse_youtube_value ((("https://www.youtube.com/watch?v=").data) ++ id ++
        (("&t=").data) ++ tstr) = (some id, some (parse_yt_time tstr)) ∧
    parse_youtube_value ((("https://youtu.be/").data) ++ id ++
        (("?t=").data) ++ tstr) = (some id, some (parse_yt_time tstr)) ∧
    parse_youtube_value ((("https://www.youtube.com/shorts/").data) ++ id ++
        (("?t=").data) ++ tstr) = (some id, some (parse_yt_time tstr)) ∧
    parse_youtube_value ((("https://www.youtube.com/embed/").data) ++ id ++
        (("?start=").data) ++ tstr) = (some id, some (parse_yt_time tstr)) ∧
    parse_youtube_value (id ++ (("&t=").data) ++ tstr) =
      (some id, some (parse_yt_time tstr)) ∧
    parse_youtube_value ((("https://www.youtube.com/watch?v=").data) ++ id) =
      (some id, none) ∧
    parse_youtube_value ((("https://youtu.be/").data) ++ id) = (some id, none) ∧
    parse_youtube_value ((("https://www.youtube.com/shorts/").data) ++ id) =
      (some id, none) ∧
    parse_youtube_value ((("https://www.youtube.com/embed/").data) ++ id) =
      (some id, none) ∧
    parse_youtube_value id = (some id, none) :=
  ⟨parse_watch_offset id tstr hlen hall ht htc,
   parse_youtu_be_offset id tstr hlen hall ht htc,
   parse_shorts_offset id tstr hlen hall ht htc,
   parse_embed_offset id tstr hlen hall ht htc,
   parse_raw_offset id tstr hlen hall ht htc,
   parse_watch_plain id hlen hall,
   parse_youtu_be_plain id hlen hall,
   parse_shorts_plain id hlen hall,
   parse_embed_plain id hlen hall,
   parse_raw_plain id hlen hall⟩

/-- C7 witness at a concrete id and offset. -/
theorem url_shapes_equivalent_witness :
    parse_youtube_value ((("https://youtu.be/").data) ++ (("Q80-pwDrCVI").data) ++
        (("?t=").data) ++ (("55s").data)) =
      (some (("Q80-pwDrCVI").data), some (parse_yt_time (("55s").data))) :=
  (url_shapes_equivalent (("Q80-pwDrCVI").data) (("55s").data)
    (by decide) (by decide) (by decide) (by decide)).2.1

end Hearsay
